import Mathlib

/-!
Verification of the ShuffleChannels permutation-plan builder from
`src/plugins/intel_cpu/src/nodes/mkldnn_shuffle_channels_node.cpp`.

The executor constructor `ShuffleChannelsExecutor::ShuffleChannelsExecutor`
(lines 168-275) derives, from a `ShuffleChannelsAttributes` bundle, a
`PermuteParams` plan: a working rank `reshapedRank`, an `order` permutation
and source/destination block dimensions.  The C++ code mutates preallocated
`std::vector<size_t>` fields; the embedding below threads the vectors
explicitly as Lean lists, with `List.set` for element assignment (machine
`size_t` arithmetic never overflows at the sizes involved, so plain `Nat`
is used; an out-of-range `List.set` leaves the list unchanged and an
out-of-range read yields the default 0, mirroring that the C++ code only
writes in bounds in the configurations the node produces).

The `PermuteKernel` that executes a plan is not part of the translated
sources; its reference semantics (a generic strided byte copy) is modelled
from the spec where marked below.
-/

namespace ShuffleChannels

/-- The four physical layouts handled by the CPU plugin
(`MKLDNNPlugin::LayoutType`). -/
inductive LayoutType where
  | ncsp    : LayoutType
  | nspc    : LayoutType
  | nCsp8c  : LayoutType
  | nCsp16c : LayoutType
deriving DecidableEq, Repr

/-- `MKLDNNShuffleChannelsNode::ShuffleChannelsAttributes`: the structural
cache key.  `axis` is an `int` in the source (it may be negative before
normalization), the remaining fields are unsigned. -/
structure ShuffleChannelsAttributes where
  layoutType : LayoutType
  dataRank : Nat
  axis : Int
  spatialRank : Nat
  group : Nat
  dataSize : Nat
  srcDims : List Nat
  srcBlockedDims : List Nat
deriving DecidableEq, Repr

/-- `PermuteParams` as filled by the executor constructor. -/
structure PermuteParams where
  data_size : Nat
  order : List Nat
  src_block_dims : List Nat
  dst_block_dims : List Nat
  src_block_order : List Nat
  dst_block_order : List Nat
deriving DecidableEq, Repr

/-- Line 179: `reshapedRank = batchRank + 2 + (spatialRank != 0) +
(isBlocked && (spatialRank == 0))` with `batchRank = attrs.axis`. -/
def reshapedRankOf (attrs : ShuffleChannelsAttributes) : Nat :=
  attrs.axis.toNat + 2 + (if attrs.spatialRank ≠ 0 then 1 else 0) +
    (if (attrs.layoutType = LayoutType.nCsp16c ∨ attrs.layoutType = LayoutType.nCsp8c) ∧
        attrs.spatialRank = 0 then 1 else 0)

/-- Line 188: `groupSize = srcDims[axis] / group` (integer division). -/
def groupSizeOf (attrs : ShuffleChannelsAttributes) : Nat :=
  attrs.srcDims.getD attrs.axis.toNat 0 / attrs.group

/-- Lines 189-194: the product of `srcDims` over `(batchRank, dataRank)`,
left at its initial value 1 when `spatialRank == 0`. -/
def spatialShapeSizeOf (attrs : ShuffleChannelsAttributes) : Nat :=
  if attrs.spatialRank ≠ 0 then
    (List.range' (attrs.axis.toNat + 1) (attrs.dataRank - (attrs.axis.toNat + 1))).foldl
      (fun s i => s * attrs.srcDims.getD i 0) 1
  else 1

/-- Lines 233-244: the body of the channels-last `axis > 1` prefix loop
(one iteration of `for i in [0, batchRank)`). -/
def nspcLoopBody (attrs : ShuffleChannelsAttributes) (reshapedRank : Nat)
    (st : List Nat × List Nat) (i : Nat) : List Nat × List Nat :=
  if i = 0 then
    (st.1.set i i, st.2.set i (attrs.srcDims.getD i 0))
  else if i = 1 then
    let ord := st.1.set (reshapedRank - 1) (reshapedRank - 1)
    (ord, st.2.set (ord.getD (reshapedRank - 1) 0) (attrs.srcDims.getD i 0))
  else
    (st.1.set (i - 1) (i - 1), st.2.set (i - 1) (attrs.srcDims.getD i 0))

/-- Lines 188-267 of the constructor: computes the `(order, src_block_dims)`
pair produced by the layout-specific branches.  Each `List.set` is one
element assignment of the C++ code; the loops become `List.foldl` over the
corresponding index ranges. -/
def branchState (attrs : ShuffleChannelsAttributes) : List Nat × List Nat :=
  let isBlocked := attrs.layoutType = LayoutType.nCsp16c ∨ attrs.layoutType = LayoutType.nCsp8c
  let isChannelsLast := attrs.layoutType = LayoutType.nspc
  let batchRank := attrs.axis.toNat
  let reshapedRank := reshapedRankOf attrs
  let order0 : List Nat := List.replicate reshapedRank 0
  let dims0 : List Nat := List.replicate reshapedRank 0
  let groupSize := groupSizeOf attrs
  let spatialShapeSize := spatialShapeSizeOf attrs
  -- lines 196-201: the decomposeAndTranpose lambda
  let decomposeAndTranpose := fun (axis : Nat) (st : List Nat × List Nat) =>
    ((st.1.set axis (axis + 1)).set (axis + 1) axis,
     (st.2.set axis attrs.group).set (axis + 1) groupSize)
  if isBlocked then
    -- lines 204-224
    let blkSize := attrs.srcBlockedDims.getLastD 0
    let CB := attrs.srcBlockedDims.getD 1 0
    if attrs.axis > 1 then
      let st := (List.range batchRank).foldl
        (fun st i => (st.1.set i i, st.2.set i (attrs.srcBlockedDims.getD i 0)))
        (order0, dims0)
      let st := decomposeAndTranpose batchRank st
      (st.1.set (batchRank + 2) (batchRank + 2),
       st.2.set (batchRank + 2) (spatialShapeSize * blkSize))
    else
      let st := decomposeAndTranpose 0 (order0, dims0)
      let spatialShapeSize := (List.range' 2 (attrs.dataRank - 2)).foldl
        (fun s i => s * attrs.srcDims.getD i 0) (CB * blkSize)
      (st.1.set 2 2, st.2.set 2 spatialShapeSize)
  else if isChannelsLast then
    -- lines 225-255
    if attrs.axis = 1 then
      let st := ((order0.set 0 0, dims0.set 0 (attrs.srcDims.getD 0 0)) :
        List Nat × List Nat)
      let st := (st.1.set 1 1, st.2.set 1 spatialShapeSize)
      decomposeAndTranpose 2 st
    else if attrs.axis > 1 then
      let st := (List.range batchRank).foldl
        (nspcLoopBody attrs reshapedRank) (order0, dims0)
      let st := decomposeAndTranpose (batchRank - 1) st
      if attrs.spatialRank ≠ 0 then
        (st.1.set (batchRank + 1) (batchRank + 1),
         st.2.set (batchRank + 1) spatialShapeSize)
      else st
    else
      let st := decomposeAndTranpose 0 (order0, dims0)
      (st.1.set 2 2, st.2.set 2 spatialShapeSize)
  else
    -- lines 256-267 (planar)
    let st := (List.range batchRank).foldl
      (fun st i => (st.1.set i i, st.2.set i (attrs.srcDims.getD i 0)))
      (order0, dims0)
    let st := decomposeAndTranpose batchRank st
    if attrs.spatialRank ≠ 0 then
      (st.1.set (batchRank + 2) (batchRank + 2),
       st.2.set (batchRank + 2) spatialShapeSize)
    else st

/-- Lines 180-186 and 269-274: assembles the full `PermuteParams`:
`src_block_order`/`dst_block_order` are filled by `std::iota`, and
`dst_block_dims[i] = src_block_dims[order[i]]`. -/
def permuteParamsOf (attrs : ShuffleChannelsAttributes) : PermuteParams :=
  let reshapedRank := reshapedRankOf attrs
  let st := branchState attrs
  { data_size := attrs.dataSize
    order := st.1
    src_block_dims := st.2
    src_block_order := (List.range reshapedRank).foldl
      (fun v i => v.set i i) (List.replicate reshapedRank 0)
    dst_block_order := (List.range reshapedRank).foldl
      (fun v i => v.set i i) (List.replicate reshapedRank 0)
    dst_block_dims := (List.range reshapedRank).foldl
      (fun d i => d.set i (st.2.getD (st.1.getD i 0) 0))
      (List.replicate reshapedRank 0) }

/-- Lines 168-275: `ShuffleChannelsExecutor::ShuffleChannelsExecutor`.
The only failure path is the layout guard of lines 169-170. -/
def shuffleChannelsExecutorInit (attrs : ShuffleChannelsAttributes) :
    Except String PermuteParams :=
  if attrs.layoutType = LayoutType.nCsp16c ∨ attrs.layoutType = LayoutType.nCsp8c ∨
     attrs.layoutType = LayoutType.nspc ∨ attrs.layoutType = LayoutType.ncsp then
    Except.ok (permuteParamsOf attrs)
  else
    Except.error "ShuffleChannels executor supports only nCsp16c, nCsp8c, nspc or ncsp layouts."

/-- Lines 75-83 together with 137-138 and 155-156: assembly of the attribute
bundle by the node: the axis from the graph operation is normalized by
adding `dataRank` when negative, and `spatialRank = dataRank - axis - 1`. -/
def makeNodeAttrs (group : Nat) (axisIn : Int) (dataRank : Nat)
    (layoutType : LayoutType) (dataSize : Nat)
    (srcDims srcBlockedDims : List Nat) : ShuffleChannelsAttributes :=
  let axis : Int := if axisIn < 0 then axisIn + dataRank else axisIn
  { layoutType := layoutType
    dataRank := dataRank
    axis := axis
    spatialRank := ((dataRank : Int) - axis - 1).toNat
    group := group
    dataSize := dataSize
    srcDims := srcDims
    srcBlockedDims := srcBlockedDims }

/-- Modelled from the spec (the `PermuteKernel` sources are not part of the
translated fragment): the row-major multi-index of linear element `e`
within extents `dims`. -/
def multiIndex : List Nat → Nat → List Nat
  | [], _ => []
  | _ :: ds, e => e / ds.prod :: multiIndex ds (e % ds.prod)

/-- Modelled from the spec: the source linear offset of a destination
multi-index `i` under `order`: the source multi-index `j` satisfies
`j[order[k]] = i[k]`, and since `src_block_order` is the identity its
row-major linearization is `Σ i[k] * srcStride(order[k])` where
`srcStride(m)` is the product of the source extents after position `m`. -/
def stridesSum (src : List Nat) : List Nat → List Nat → Nat
  | x :: i, m :: ord => x * (src.drop (m + 1)).prod + stridesSum src i ord
  | _, _ => 0

/-- Modelled from the spec: the source element index read for destination
element index `e` by the strided copy of a plan. -/
def permuteLin (p : PermuteParams) (e : Nat) : Nat :=
  stridesSum p.src_block_dims (multiIndex p.dst_block_dims e) p.order

/-- Modelled from the spec: byte-level source position for destination byte
`t` (each element occupies `data_size` bytes, copied unchanged). -/
def permByteMap (p : PermuteParams) (t : Nat) : Nat :=
  permuteLin p (t / p.data_size) * p.data_size + t % p.data_size

/-- Modelled from the spec: `PermuteKernel::execute` produces, for every
destination byte index below the plan total, the source byte selected by
the plan; an overriding batch `mb` replaces the axis-0 destination extent. -/
def permuteKernelExecute (p : PermuteParams) (src : Nat → Nat)
    (mbOverride : Option Nat) : List Nat :=
  let batch := match mbOverride with
    | some mb => mb
    | none => p.dst_block_dims.getD 0 0
  (List.range (batch * (p.dst_block_dims.drop 1).prod * p.data_size)).map
    (fun t => src (permByteMap p t))

/-- Lines 277-285: `ShuffleChannelsExecutor::exec`: fails when no kernel
was compiled, dispatches to the batch-override entry point only when
`MB > 0`. -/
def shuffleChannelsExecutorExec (kernel : Option PermuteParams)
    (src : Nat → Nat) (MB : Int) : Except String (List Nat) :=
  match kernel with
  | none => Except.error "Could not execute. Kernel for Transpose node was not compiled."
  | some p =>
    if MB > 0 then Except.ok (permuteKernelExecute p src (some MB.toNat))
    else Except.ok (permuteKernelExecute p src none)

/-- Row-major linearization of a multi-index (the proof-side inverse of
`multiIndex`; not part of the modelled kernel). -/
def linRM : List Nat → List Nat → Nat
  | _ :: ds, x :: i => x * ds.prod + linRM ds i
  | _, _ => 0

/-- Closed form (proof-side) of the element map induced by a planar
shuffle plan: batch block, decomposed channel pair, spatial remainder. -/
def planarChannelMap (C S g gs e : Nat) : Nat :=
  e / (C * S) * (C * S) + (e % (C * S) / S / g) * S
    + (e % (C * S) / S % g) * (gs * S) + e % S

/-! ### Concrete attribute bundles used as test vectors -/

/-- Planar, rank 4, shape `[1,4,2,2]`, axis 1, group 2, 4-byte elements
(the configuration of the concrete copy-correctness property). -/
def examplePlanarAttrs : ShuffleChannelsAttributes :=
  { layoutType := LayoutType.ncsp, dataRank := 4, axis := 1, spatialRank := 2,
    group := 2, dataSize := 4, srcDims := [1, 4, 2, 2], srcBlockedDims := [1, 4, 2, 2] }

/-- Planar, rank 4, shape `[1,3,2,2]`, axis 1, group 2: the shuffle-axis
extent 3 is not divisible by the group 2. -/
def exampleNonDivisibleAttrs : ShuffleChannelsAttributes :=
  { layoutType := LayoutType.ncsp, dataRank := 4, axis := 1, spatialRank := 2,
    group := 2, dataSize := 4, srcDims := [1, 3, 2, 2], srcBlockedDims := [1, 3, 2, 2] }

/-- Blocked-8, rank 3, shape `[1,8,1]`, axis 1 (the channel axis), group 2:
a configuration the executor constructor accepts but the node never selects
(blocked descriptors are only offered when axis != 1, line 116). -/
def exampleBlockedAxis1Attrs : ShuffleChannelsAttributes :=
  { layoutType := LayoutType.nCsp8c, dataRank := 3, axis := 1, spatialRank := 1,
    group := 2, dataSize := 4, srcDims := [1, 8, 1], srcBlockedDims := [1, 1, 1, 8] }

/-- Blocked-8, rank 3, shape `[1,8,4]`, axis 2 (the last axis, so
`spatialRank = 0`), group 2. -/
def exampleBlockedAttrs : ShuffleChannelsAttributes :=
  { layoutType := LayoutType.nCsp8c, dataRank := 3, axis := 2, spatialRank := 0,
    group := 2, dataSize := 4, srcDims := [1, 8, 4], srcBlockedDims := [1, 1, 4, 8] }

/-- Channels-last, rank 4, shape `[2,3,4,5]`, axis 2, group 2. -/
def exampleChannelsLastAttrs : ShuffleChannelsAttributes :=
  { layoutType := LayoutType.nspc, dataRank := 4, axis := 2, spatialRank := 1,
    group := 2, dataSize := 4, srcDims := [2, 3, 4, 5], srcBlockedDims := [2, 4, 5, 3] }

/-! ### General lemmas about the loop encodings -/

theorem foldl_pres {α ι : Type} (f : α → ι → α) (P : α → Prop)
    (h : ∀ s i, P s → P (f s i)) :
    ∀ (l : List ι) (s : α), P s → P (l.foldl f s) := by
  intro l
  induction l with
  | nil => intro s hs; exact hs
  | cons x xs ih => intro s hs; exact ih _ (h s x hs)

theorem foldl_pair {α β ι : Type} (f : α → ι → α) (g : β → ι → β) :
    ∀ (l : List ι) (a : α) (b : β),
      l.foldl (fun st i => (f st.1 i, g st.2 i)) (a, b) = (l.foldl f a, l.foldl g b) := by
  intro l
  induction l with
  | nil => intro a b; rfl
  | cons x xs ih => intro a b; exact ih _ _

theorem foldl_set_range (f : Nat → Nat) :
    ∀ (n : Nat) (l : List Nat), n ≤ l.length →
      (List.range n).foldl (fun d i => d.set i (f i)) l
        = ((List.range n).map f) ++ l.drop n := by
  intro n
  induction n with
  | zero => intro l _; simp
  | succ n ih =>
    intro l h
    rw [List.range_succ, List.foldl_append, ih l (by omega)]
    simp only [List.foldl_cons, List.foldl_nil]
    rw [List.set_append]
    have hlen : ((List.range n).map f).length = n := by simp
    rw [hlen, if_neg (lt_irrefl n), Nat.sub_self,
      List.drop_eq_getElem_cons (show n < l.length by omega), List.set_cons_zero]
    simp

theorem count_range_lt {j n : Nat} (h : j < n) : (List.range n).count j = 1 :=
  List.count_eq_one_of_mem (List.nodup_range n) (List.mem_range.mpr h)

theorem set_append_ge {l rest : List Nat} {n j : Nat} (hlen : l.length = n)
    (hj : n ≤ j) (v : Nat) :
    (l ++ rest).set j v = l ++ rest.set (j - n) v := by
  rw [List.set_append, hlen, if_neg (by omega)]

/-- The planar/blocked prefix loop: identity order, dims drawn through `g`. -/
theorem prefix_loop_char (g : Nat → Nat) :
    ∀ (n m : Nat), n ≤ m →
      (List.range n).foldl
        (fun st i => (st.1.set i i, st.2.set i (g i)))
        (List.replicate m 0, List.replicate m 0)
        = (List.range n ++ List.replicate (m - n) 0,
           (List.range n).map g ++ List.replicate (m - n) 0) := by
  intro n
  induction n with
  | zero => intro m _; simp
  | succ n ih =>
    intro m h
    rw [List.range_succ, List.foldl_append, ih m (by omega)]
    simp only [List.foldl_cons, List.foldl_nil]
    have hm : m - n = (m - (n + 1)) + 1 := by omega
    rw [hm, List.replicate_succ]
    rw [set_append_ge (List.length_range n) (le_refl n),
      set_append_ge (by simp) (le_refl n), Nat.sub_self, List.set_cons_zero,
      List.set_cons_zero]
    simp [List.range_succ]

/-! ### Shape of `reshapedRank` in the individual branches -/

theorem reshapedRank_planar (a : ShuffleChannelsAttributes) (n : Nat)
    (hl : a.layoutType = LayoutType.ncsp) (hax : a.axis = (n : Int)) :
    reshapedRankOf a = n + 2 + (if a.spatialRank ≠ 0 then 1 else 0) := by
  simp [reshapedRankOf, hl, hax]

/-! ### Characterization of the planar branch (lines 256-267) -/

theorem branchState_planar_sp (a : ShuffleChannelsAttributes) (n : Nat)
    (hl : a.layoutType = LayoutType.ncsp) (hax : a.axis = (n : Int))
    (hsp : a.spatialRank ≠ 0) :
    branchState a =
      (List.range n ++ [n + 1, n, n + 2],
       (List.range n).map (fun i => a.srcDims.getD i 0) ++
         [a.group, groupSizeOf a, spatialShapeSizeOf a]) := by
  have hrr : reshapedRankOf a = n + 3 := by
    simp [reshapedRankOf, hl, hax, hsp]
  have hc1 : ¬ (n < n) := lt_irrefl n
  have hc2 : ¬ (n + 1 < n) := by omega
  have hc3 : ¬ (n + 2 < n) := by omega
  simp only [branchState, hl, hax, hrr, hsp, ne_eq, not_false_eq_true, if_true,
    Int.toNat_natCast]
  rw [if_neg (by decide :
        ¬ (LayoutType.ncsp = LayoutType.nCsp16c ∨ LayoutType.ncsp = LayoutType.nCsp8c)),
    if_neg (by decide : ¬ LayoutType.ncsp = LayoutType.nspc)]
  rw [prefix_loop_char (fun i => a.srcDims.getD i 0) n (n + 3) (by omega)]
  have h3 : n + 3 - n = 3 := by omega
  simp only [h3, show List.replicate 3 (0 : Nat) = [0, 0, 0] from rfl]
  simp [List.set_append, hc1, hc2, hc3]

theorem branchState_planar_nosp (a : ShuffleChannelsAttributes) (n : Nat)
    (hl : a.layoutType = LayoutType.ncsp) (hax : a.axis = (n : Int))
    (hsp : a.spatialRank = 0) :
    branchState a =
      (List.range n ++ [n + 1, n],
       (List.range n).map (fun i => a.srcDims.getD i 0) ++
         [a.group, groupSizeOf a]) := by
  have hrr : reshapedRankOf a = n + 2 := by
    simp [reshapedRankOf, hl, hax, hsp]
  have hc1 : ¬ (n < n) := lt_irrefl n
  have hc2 : ¬ (n + 1 < n) := by omega
  simp only [branchState, hl, hax, hrr, hsp, ne_eq, not_true_eq_false, if_false,
    Int.toNat_natCast]
  rw [if_neg (by decide :
        ¬ (LayoutType.ncsp = LayoutType.nCsp16c ∨ LayoutType.ncsp = LayoutType.nCsp8c)),
    if_neg (by decide : ¬ LayoutType.ncsp = LayoutType.nspc)]
  rw [prefix_loop_char (fun i => a.srcDims.getD i 0) n (n + 2) (by omega)]
  have h2 : n + 2 - n = 2 := by omega
  simp only [h2, show List.replicate 2 (0 : Nat) = [0, 0] from rfl]
  simp [List.set_append, hc1, hc2]

/-! ### Characterization of the blocked branch (lines 204-224) -/

theorem reshapedRank_blocked (a : ShuffleChannelsAttributes) (n : Nat)
    (hl : a.layoutType = LayoutType.nCsp16c ∨ a.layoutType = LayoutType.nCsp8c)
    (hax : a.axis = (n : Int)) :
    reshapedRankOf a = n + 3 := by
  by_cases hsp : a.spatialRank = 0 <;>
    rcases hl with hl | hl <;>
      simp [reshapedRankOf, hl, hax, hsp]

theorem branchState_blocked_gt1 (a : ShuffleChannelsAttributes) (n : Nat)
    (hl : a.layoutType = LayoutType.nCsp16c ∨ a.layoutType = LayoutType.nCsp8c)
    (hax : a.axis = (n : Int)) (hn : 2 ≤ n) :
    branchState a =
      (List.range n ++ [n + 1, n, n + 2],
       (List.range n).map (fun i => a.srcBlockedDims.getD i 0) ++
         [a.group, groupSizeOf a,
          spatialShapeSizeOf a * a.srcBlockedDims.getLastD 0]) := by
  have hrr := reshapedRank_blocked a n hl hax
  have hc1 : ¬ (n < n) := lt_irrefl n
  have hc2 : ¬ (n + 1 < n) := by omega
  have hc3 : ¬ (n + 2 < n) := by omega
  simp only [branchState, hax, hrr, Int.toNat_natCast, if_pos hl]
  rw [if_pos (by omega : (1 : Int) < (n : Int))]
  rw [prefix_loop_char (fun i => a.srcBlockedDims.getD i 0) n (n + 3) (by omega)]
  have h3 : n + 3 - n = 3 := by omega
  simp only [h3, show List.replicate 3 (0 : Nat) = [0, 0, 0] from rfl]
  simp [List.set_append, hc1, hc2, hc3]

theorem branchState_blocked_axis0_fst (a : ShuffleChannelsAttributes)
    (hl : a.layoutType = LayoutType.nCsp16c ∨ a.layoutType = LayoutType.nCsp8c)
    (hax : a.axis = 0) :
    (branchState a).1 = [1, 0, 2] := by
  have hrr := reshapedRank_blocked a 0 hl (by simpa using hax)
  simp only [branchState, hax, hrr, if_pos hl]
  rw [if_neg (by omega : ¬ (1 : Int) < 0)]
  rfl

/-! ### Characterization of the channels-last branch (lines 225-255) -/

theorem branchState_nspc_axis1_sp_fst (a : ShuffleChannelsAttributes)
    (hl : a.layoutType = LayoutType.nspc) (hax : a.axis = 1)
    (hsp : a.spatialRank ≠ 0) :
    (branchState a).1 = [0, 1, 3, 2] := by
  have hrr : reshapedRankOf a = 4 := by simp [reshapedRankOf, hl, hax, hsp]
  simp only [branchState, hl, hax, hrr, if_true]
  rfl

theorem branchState_nspc_axis0_fst (a : ShuffleChannelsAttributes)
    (hl : a.layoutType = LayoutType.nspc) (hax : a.axis = 0) :
    (branchState a).1 = if a.spatialRank ≠ 0 then [1, 0, 2] else [1, 0] := by
  by_cases hsp : a.spatialRank = 0
  · have hrr : reshapedRankOf a = 2 := by simp [reshapedRankOf, hl, hax, hsp]
    simp only [branchState, hl, hax, hrr, hsp, ne_eq, not_true_eq_false, if_false]
    rfl
  · have hrr : reshapedRankOf a = 3 := by simp [reshapedRankOf, hl, hax, hsp]
    simp only [branchState, hl, hax, hrr, hsp, ne_eq, not_false_eq_true, if_true]
    rfl

/-- The channels-last prefix loop for `axis > 1`, restricted to indices `≥ 2`
(the `i == 0` and `i == 1` iterations are peeled off separately). -/
theorem nspc_tail_loop (g : Nat → Nat)
    (b : (List Nat × List Nat) → Nat → (List Nat × List Nat))
    (hb : ∀ st i, 2 ≤ i → b st i = (st.1.set (i - 1) (i - 1), st.2.set (i - 1) (g i))) :
    ∀ (k : Nat) (o d : List Nat), 1 + k ≤ o.length → 1 + k ≤ d.length →
      (List.range' 2 k).foldl b (o, d)
        = (o.take 1 ++ List.range' 1 k ++ o.drop (1 + k),
           d.take 1 ++ (List.range' 2 k).map g ++ d.drop (1 + k)) := by
  intro k
  induction k with
  | zero => intro o d _ _; simp [← List.drop_one, List.take_append_drop]
  | succ k ih =>
    intro o d ho hd
    rw [show List.range' 2 (k + 1) = List.range' 2 k ++ [2 + k] by
      simpa using @List.range'_concat 1 2 k]
    rw [List.foldl_append, ih o d (by omega) (by omega)]
    simp only [List.foldl_cons, List.foldl_nil]
    rw [hb _ _ (by omega)]
    dsimp only
    have htk1 : (o.take 1).length = 1 := by simp; omega
    have htk2 : (d.take 1).length = 1 := by simp; omega
    have hstep : 2 + k - 1 = 1 + k := by omega
    rw [hstep]
    rw [@set_append_ge (o.take 1 ++ List.range' 1 k) (o.drop (1 + k)) (1 + k) (1 + k)
        (by simp [htk1]) (le_refl (1 + k)) (1 + k),
      @set_append_ge (d.take 1 ++ (List.range' 2 k).map g) (d.drop (1 + k)) (1 + k) (1 + k)
        (by simp [htk2]) (le_refl (1 + k)) (g (2 + k)),
      Nat.sub_self]
    rw [List.drop_eq_getElem_cons (show 1 + k < o.length by omega),
      List.drop_eq_getElem_cons (show 1 + k < d.length by omega),
      List.set_cons_zero, List.set_cons_zero]
    rw [show List.range' 1 (k + 1) = List.range' 1 k ++ [1 + k] by
      simpa using @List.range'_concat 1 1 k]
    rw [show 1 + (k + 1) = 1 + k + 1 by omega]
    simp

theorem set_set_replicate (n : Nat) (x y : Nat) :
    ((List.replicate (n + 3) (0 : Nat)).set 0 x).set (n + 2) y
      = x :: (List.replicate (n + 1) 0 ++ [y]) := by
  rw [show (n + 3) = (n + 2) + 1 from rfl, List.replicate_succ, List.set_cons_zero,
    List.set_cons_succ, show (n + 2) = (n + 1) + 1 from rfl, List.replicate_succ',
    @set_append_ge (List.replicate (n + 1) 0) [(0 : Nat)] (n + 1) (n + 1)
      (by simp) (le_refl _) y, Nat.sub_self]
  rfl

theorem set_set_replicate' (n : Nat) (x y : Nat) :
    ((List.replicate (n + 2) (0 : Nat)).set 0 x).set (n + 1) y
      = x :: (List.replicate n 0 ++ [y]) := by
  rw [show (n + 2) = (n + 1) + 1 from rfl, List.replicate_succ, List.set_cons_zero,
    List.set_cons_succ, show (n + 1) = n + 1 from rfl, List.replicate_succ',
    @set_append_ge (List.replicate n 0) [(0 : Nat)] n n
      (by simp) (le_refl _) y, Nat.sub_self]
  rfl

theorem set_cons_append_tail (x : Nat) (A B : List Nat) (j v k : Nat)
    (h : A.length + 1 ≤ j) (hk : j - 1 - A.length = k) :
    (x :: (A ++ B)).set j v = x :: (A ++ B.set k v) := by
  cases j with
  | zero => exact absurd h (by omega)
  | succ j =>
    rw [List.set_cons_succ, set_append_ge rfl (by omega)]
    have : j - A.length = k := by omega
    rw [this]

theorem branchState_nspc_gt1_sp (a : ShuffleChannelsAttributes) (n : Nat)
    (hl : a.layoutType = LayoutType.nspc) (hax : a.axis = (n : Int)) (hn : 2 ≤ n)
    (hsp : a.spatialRank ≠ 0) :
    branchState a =
      (List.range (n - 1) ++ [n, n - 1, n + 1, n + 2],
       a.srcDims.getD 0 0 ::
         ((List.range' 2 (n - 2)).map (fun i => a.srcDims.getD i 0) ++
          [a.group, groupSizeOf a, spatialShapeSizeOf a, a.srcDims.getD 1 0])) := by
  have hrr : reshapedRankOf a = n + 3 := by simp [reshapedRankOf, hl, hax, hsp]
  have hb0 : ∀ st : List Nat × List Nat, nspcLoopBody a (n + 3) st 0
      = (st.1.set 0 0, st.2.set 0 (a.srcDims.getD 0 0)) := by
    intro st; simp [nspcLoopBody]
  have hb1 : ∀ st : List Nat × List Nat, nspcLoopBody a (n + 3) st 1
      = (st.1.set (n + 2) (n + 2),
         st.2.set ((st.1.set (n + 2) (n + 2)).getD (n + 2) 0) (a.srcDims.getD 1 0)) := by
    intro st; simp [nspcLoopBody]
  have hbt : ∀ (st : List Nat × List Nat) (i : Nat), 2 ≤ i →
      nspcLoopBody a (n + 3) st i
        = (st.1.set (i - 1) (i - 1),
           st.2.set (i - 1) ((fun j => a.srcDims.getD j 0) i)) := by
    intro st i hi
    simp only [nspcLoopBody, if_neg (by omega : ¬ i = 0), if_neg (by omega : ¬ i = 1)]
  simp only [branchState, hl, hax, hrr, hsp, ne_eq, not_false_eq_true, if_true,
    Int.toNat_natCast]
  rw [if_neg (by decide :
        ¬ (LayoutType.nspc = LayoutType.nCsp16c ∨ LayoutType.nspc = LayoutType.nCsp8c)),
    if_neg (show ¬ ((n : Int) = 1) by omega),
    if_pos (show ((n : Int) > 1) by omega)]
  rw [show List.range n = 0 :: 1 :: List.range' 2 (n - 2) by
    rw [List.range_eq_range']
    conv_lhs => rw [show n = (n - 2) + 1 + 1 by omega]
    rw [List.range'_succ, List.range'_succ]]
  simp only [List.foldl_cons]
  rw [hb0, hb1]
  dsimp only
  rw [set_set_replicate n 0 (n + 2)]
  have hget : ((0 : Nat) :: (List.replicate (n + 1) 0 ++ [n + 2])).getD (n + 2) 0
      = n + 2 := by
    rw [List.getD_eq_getElem _ _ (by simp), List.getElem_cons_succ,
      List.getElem_append_right (by simp : (List.replicate (n + 1) (0 : Nat)).length ≤ n + 1)]
    simp
  rw [hget, set_set_replicate n (a.srcDims.getD 0 0) (a.srcDims.getD 1 0)]
  rw [nspc_tail_loop (fun j => a.srcDims.getD j 0) (nspcLoopBody a (n + 3)) hbt
    (n - 2) (0 :: (List.replicate (n + 1) 0 ++ [n + 2]))
    (a.srcDims.getD 0 0 :: (List.replicate (n + 1) 0 ++ [a.srcDims.getD 1 0]))
    (by simp only [List.length_cons, List.length_append, List.length_replicate,
          List.length_singleton]; omega)
    (by simp only [List.length_cons, List.length_append, List.length_replicate,
          List.length_singleton]; omega)]
  rw [show (1 + (n - 2)) = (n - 2) + 1 by omega]
  rw [List.drop_succ_cons, List.drop_succ_cons,
    List.drop_append_of_le_length (by simp; omega),
    List.drop_append_of_le_length (by simp; omega),
    List.drop_replicate, show n + 1 - (n - 2) = 3 by omega]
  rw [show List.range (n - 1) = 0 :: List.range' 1 (n - 2) by
    rw [List.range_eq_range', show n - 1 = (n - 2) + 1 by omega, List.range'_succ]]
  rw [show (n - 1 + 1) = n by omega]
  have hlen1 : (((0 : Nat) :: (List.replicate (n + 1) 0 ++ [n + 2])).take 1
      ++ List.range' 1 (n - 2)).length = n - 1 := by
    simp; omega
  have hlen2 : ((a.srcDims.getD 0 0 :: (List.replicate (n + 1) 0 ++ [a.srcDims.getD 1 0])).take 1
      ++ (List.range' 2 (n - 2)).map (fun j => a.srcDims.getD j 0)).length = n - 1 := by
    simp; omega
  have hc1 : ¬ (n - 1 < n - 1) := lt_irrefl _
  have hc2 : ¬ (n < n - 1) := by omega
  have hc3 : ¬ (n + 1 < n - 1) := by omega
  have hs1 : n - (n - 1) = 1 := by omega
  have hs2 : n + 1 - (n - 1) = 2 := by omega
  simp only [List.set_append, hlen1, hlen2, hc1, hc2, hc3, hs1, hs2,
    show List.replicate 3 (0 : Nat) = [0, 0, 0] from rfl,
    List.append_assoc, List.take_succ_cons, List.take_zero, List.cons_append,
    List.nil_append, List.singleton_append, Prod.mk.injEq]
  constructor
  · rw [set_cons_append_tail 0 (List.range' 1 (n - 2)) [0, 0, 0, n + 2] (n - 1) n 0
        (by simp only [List.length_range']; omega) (by simp only [List.length_range']; omega),
      show ([0, 0, 0, n + 2] : List Nat).set 0 n = [n, 0, 0, n + 2] from rfl,
      set_cons_append_tail 0 (List.range' 1 (n - 2)) [n, 0, 0, n + 2] n (n - 1) 1
        (by simp only [List.length_range']; omega) (by simp only [List.length_range']; omega),
      show ([n, 0, 0, n + 2] : List Nat).set 1 (n - 1) = [n, n - 1, 0, n + 2] from rfl,
      set_cons_append_tail 0 (List.range' 1 (n - 2)) [n, n - 1, 0, n + 2] (n + 1) (n + 1) 2
        (by simp only [List.length_range']; omega) (by simp only [List.length_range']; omega)]
    all_goals rfl
  · rw [set_cons_append_tail (a.srcDims.getD 0 0)
        ((List.range' 2 (n - 2)).map (fun j => a.srcDims.getD j 0))
        [0, 0, 0, a.srcDims.getD 1 0] (n - 1) a.group 0
        (by simp only [List.length_map, List.length_range']; omega)
        (by simp only [List.length_map, List.length_range']; omega),
      show ([0, 0, 0, a.srcDims.getD 1 0] : List Nat).set 0 a.group
        = [a.group, 0, 0, a.srcDims.getD 1 0] from rfl,
      set_cons_append_tail (a.srcDims.getD 0 0)
        ((List.range' 2 (n - 2)).map (fun j => a.srcDims.getD j 0))
        [a.group, 0, 0, a.srcDims.getD 1 0] n (groupSizeOf a) 1
        (by simp only [List.length_map, List.length_range']; omega)
        (by simp only [List.length_map, List.length_range']; omega),
      show ([a.group, 0, 0, a.srcDims.getD 1 0] : List Nat).set 1 (groupSizeOf a)
        = [a.group, groupSizeOf a, 0, a.srcDims.getD 1 0] from rfl,
      set_cons_append_tail (a.srcDims.getD 0 0)
        ((List.range' 2 (n - 2)).map (fun j => a.srcDims.getD j 0))
        [a.group, groupSizeOf a, 0, a.srcDims.getD 1 0] (n + 1) (spatialShapeSizeOf a) 2
        (by simp only [List.length_map, List.length_range']; omega)
        (by simp only [List.length_map, List.length_range']; omega)]
    all_goals rfl

theorem branchState_nspc_gt1_nosp (a : ShuffleChannelsAttributes) (n : Nat)
    (hl : a.layoutType = LayoutType.nspc) (hax : a.axis = (n : Int)) (hn : 2 ≤ n)
    (hsp : a.spatialRank = 0) :
    branchState a =
      (List.range (n - 1) ++ [n, n - 1, n + 1],
       a.srcDims.getD 0 0 ::
         ((List.range' 2 (n - 2)).map (fun i => a.srcDims.getD i 0) ++
          [a.group, groupSizeOf a, a.srcDims.getD 1 0])) := by
  have hrr : reshapedRankOf a = n + 2 := by simp [reshapedRankOf, hl, hax, hsp]
  have hb0 : ∀ st : List Nat × List Nat, nspcLoopBody a (n + 2) st 0
      = (st.1.set 0 0, st.2.set 0 (a.srcDims.getD 0 0)) := by
    intro st; simp [nspcLoopBody]
  have hb1 : ∀ st : List Nat × List Nat, nspcLoopBody a (n + 2) st 1
      = (st.1.set (n + 1) (n + 1),
         st.2.set ((st.1.set (n + 1) (n + 1)).getD (n + 1) 0) (a.srcDims.getD 1 0)) := by
    intro st; simp [nspcLoopBody]
  have hbt : ∀ (st : List Nat × List Nat) (i : Nat), 2 ≤ i →
      nspcLoopBody a (n + 2) st i
        = (st.1.set (i - 1) (i - 1),
           st.2.set (i - 1) ((fun j => a.srcDims.getD j 0) i)) := by
    intro st i hi
    simp only [nspcLoopBody, if_neg (by omega : ¬ i = 0), if_neg (by omega : ¬ i = 1)]
  simp only [branchState, hl, hax, hrr, hsp, ne_eq, not_true_eq_false, if_false,
    if_true, Int.toNat_natCast]
  rw [if_neg (by decide :
        ¬ (LayoutType.nspc = LayoutType.nCsp16c ∨ LayoutType.nspc = LayoutType.nCsp8c)),
    if_neg (show ¬ ((n : Int) = 1) by omega),
    if_pos (show ((n : Int) > 1) by omega)]
  rw [show List.range n = 0 :: 1 :: List.range' 2 (n - 2) by
    rw [List.range_eq_range']
    conv_lhs => rw [show n = (n - 2) + 1 + 1 by omega]
    rw [List.range'_succ, List.range'_succ]]
  simp only [List.foldl_cons]
  rw [hb0, hb1]
  dsimp only
  rw [set_set_replicate' n 0 (n + 1)]
  have hget : ((0 : Nat) :: (List.replicate n 0 ++ [n + 1])).getD (n + 1) 0
      = n + 1 := by
    rw [List.getD_eq_getElem _ _ (by simp), List.getElem_cons_succ,
      List.getElem_append_right (by simp : (List.replicate n (0 : Nat)).length ≤ n)]
    simp
  rw [hget, set_set_replicate' n (a.srcDims.getD 0 0) (a.srcDims.getD 1 0)]
  rw [nspc_tail_loop (fun j => a.srcDims.getD j 0) (nspcLoopBody a (n + 2)) hbt
    (n - 2) (0 :: (List.replicate n 0 ++ [n + 1]))
    (a.srcDims.getD 0 0 :: (List.replicate n 0 ++ [a.srcDims.getD 1 0]))
    (by simp only [List.length_cons, List.length_append, List.length_replicate,
          List.length_singleton]; omega)
    (by simp only [List.length_cons, List.length_append, List.length_replicate,
          List.length_singleton]; omega)]
  rw [show (1 + (n - 2)) = (n - 2) + 1 by omega]
  rw [List.drop_succ_cons, List.drop_succ_cons,
    List.drop_append_of_le_length (by simp),
    List.drop_append_of_le_length (by simp),
    List.drop_replicate, show n - (n - 2) = 2 by omega]
  rw [show List.range (n - 1) = 0 :: List.range' 1 (n - 2) by
    rw [List.range_eq_range']
    conv_lhs => rw [show n - 1 = (n - 2) + 1 by omega]
    rw [List.range'_succ]]
  rw [show (n - 1 + 1) = n by omega]
  have hc1 : ¬ (n - 1 < n - 1) := lt_irrefl _
  have hc2 : ¬ (n < n - 1) := by omega
  have hs1 : n - (n - 1) = 1 := by omega
  simp only [List.set_append, hc1, hc2, hs1,
    show List.replicate 2 (0 : Nat) = [0, 0] from rfl,
    List.append_assoc, List.take_succ_cons, List.take_zero, List.cons_append,
    List.nil_append, List.singleton_append, Prod.mk.injEq]
  constructor
  · rw [set_cons_append_tail 0 (List.range' 1 (n - 2)) [0, 0, n + 1] (n - 1) n 0
        (by simp only [List.length_range']; omega) (by simp only [List.length_range']; omega),
      show ([0, 0, n + 1] : List Nat).set 0 n = [n, 0, n + 1] from rfl,
      set_cons_append_tail 0 (List.range' 1 (n - 2)) [n, 0, n + 1] n (n - 1) 1
        (by simp only [List.length_range']; omega) (by simp only [List.length_range']; omega)]
    all_goals rfl
  · rw [set_cons_append_tail (a.srcDims.getD 0 0)
        ((List.range' 2 (n - 2)).map (fun j => a.srcDims.getD j 0))
        [0, 0, a.srcDims.getD 1 0] (n - 1) a.group 0
        (by simp only [List.length_map, List.length_range']; omega)
        (by simp only [List.length_map, List.length_range']; omega),
      show ([0, 0, a.srcDims.getD 1 0] : List Nat).set 0 a.group
        = [a.group, 0, a.srcDims.getD 1 0] from rfl,
      set_cons_append_tail (a.srcDims.getD 0 0)
        ((List.range' 2 (n - 2)).map (fun j => a.srcDims.getD j 0))
        [a.group, 0, a.srcDims.getD 1 0] n (groupSizeOf a) 1
        (by simp only [List.length_map, List.length_range']; omega)
        (by simp only [List.length_map, List.length_range']; omega)]
    all_goals rfl

/-! ### Structural facts about the assembled plan -/

theorem permuteParamsOf_order (a : ShuffleChannelsAttributes) :
    (permuteParamsOf a).order = (branchState a).1 := rfl

theorem permuteParamsOf_src (a : ShuffleChannelsAttributes) :
    (permuteParamsOf a).src_block_dims = (branchState a).2 := rfl

theorem permuteParamsOf_data_size (a : ShuffleChannelsAttributes) :
    (permuteParamsOf a).data_size = a.dataSize := rfl

theorem permuteParamsOf_dst (a : ShuffleChannelsAttributes) :
    (permuteParamsOf a).dst_block_dims =
      (List.range (reshapedRankOf a)).map
        (fun i => (branchState a).2.getD ((branchState a).1.getD i 0) 0) := by
  show (List.range (reshapedRankOf a)).foldl _ _ = _
  rw [foldl_set_range (fun i => (branchState a).2.getD ((branchState a).1.getD i 0) 0)
    (reshapedRankOf a) _ (by simp)]
  simp

theorem executorInit_ok (a : ShuffleChannelsAttributes) :
    shuffleChannelsExecutorInit a = Except.ok (permuteParamsOf a) := by
  cases h : a.layoutType <;> simp [shuffleChannelsExecutorInit, h]

theorem branchState_length (a : ShuffleChannelsAttributes) :
    (branchState a).1.length = reshapedRankOf a ∧
    (branchState a).2.length = reshapedRankOf a := by
  have hpair : ∀ (g : Nat → Nat) (st : List Nat × List Nat),
      st.1.length = reshapedRankOf a → st.2.length = reshapedRankOf a →
      ∀ l : List Nat,
        ((l.foldl (fun st i => (st.1.set i i, st.2.set i (g i))) st).1.length
            = reshapedRankOf a ∧
         (l.foldl (fun st i => (st.1.set i i, st.2.set i (g i))) st).2.length
            = reshapedRankOf a) := by
    intro g st h1 h2 l
    exact foldl_pres (fun st i => (st.1.set i i, st.2.set i (g i)))
      (fun st => st.1.length = reshapedRankOf a ∧ st.2.length = reshapedRankOf a)
      (by intro s i hs; simpa using hs) l st ⟨h1, h2⟩
  have hnspc : ∀ st : List Nat × List Nat,
      st.1.length = reshapedRankOf a → st.2.length = reshapedRankOf a →
      ∀ l : List Nat,
        ((l.foldl (nspcLoopBody a (reshapedRankOf a)) st).1.length = reshapedRankOf a ∧
         (l.foldl (nspcLoopBody a (reshapedRankOf a)) st).2.length = reshapedRankOf a) := by
    intro st h1 h2 l
    refine foldl_pres (nspcLoopBody a (reshapedRankOf a))
      (fun st => st.1.length = reshapedRankOf a ∧ st.2.length = reshapedRankOf a)
      ?_ l st ⟨h1, h2⟩
    intro s i hs
    unfold nspcLoopBody
    split
    · simpa using hs
    · split
      · simpa using hs
      · simpa using hs
  simp only [branchState]
  split
  · split
    · obtain ⟨u, v⟩ := hpair (fun i => a.srcBlockedDims.getD i 0)
        (List.replicate (reshapedRankOf a) 0, List.replicate (reshapedRankOf a) 0)
        (by simp) (by simp) (List.range a.axis.toNat)
      refine ⟨?_, ?_⟩
      · simp only [List.length_set]; exact u
      · simp only [List.length_set]; exact v
    · constructor <;> simp
  · split
    · split
      · constructor <;> simp
      · split
        · obtain ⟨u, v⟩ := hnspc
            (List.replicate (reshapedRankOf a) 0, List.replicate (reshapedRankOf a) 0)
            (by simp) (by simp) (List.range a.axis.toNat)
          split
          · refine ⟨?_, ?_⟩
            · simp only [List.length_set]; exact u
            · simp only [List.length_set]; exact v
          · refine ⟨?_, ?_⟩
            · simp only [List.length_set]; exact u
            · simp only [List.length_set]; exact v
        · constructor <;> simp
    · obtain ⟨u, v⟩ := hpair (fun i => a.srcDims.getD i 0)
        (List.replicate (reshapedRankOf a) 0, List.replicate (reshapedRankOf a) 0)
        (by simp) (by simp) (List.range a.axis.toNat)
      split
      · refine ⟨?_, ?_⟩
        · simp only [List.length_set]; exact u
        · simp only [List.length_set]; exact v
      · refine ⟨?_, ?_⟩
        · simp only [List.length_set]; exact u
        · simp only [List.length_set]; exact v

/-! ### Permutation facts about `order` -/

theorem count_of_perm_range {L : List Nat} {m : Nat} (h : L.Perm (List.range m)) :
    L.length = m ∧ ∀ j < m, L.count j = 1 := by
  constructor
  · simpa using h.length_eq
  · intro j hj
    rw [h.count_eq]
    exact count_range_lt hj

theorem range_split (m k : Nat) :
    List.range (m + k) = List.range m ++ List.range' m k := by
  rw [List.range_eq_range', List.range_eq_range',
    show m + k = k + m from Nat.add_comm m k]
  exact (by simpa using (@List.range'_append 0 m k 1).symm)

theorem perm_decompose_tail_sp (n : Nat) :
    (List.range n ++ [n + 1, n, n + 2]).Perm (List.range (n + 3)) := by
  rw [range_split n 3, show List.range' n 3 = [n, n + 1, n + 2] from rfl]
  exact List.Perm.append_left (List.range n) (List.Perm.swap n (n + 1) [n + 2])

theorem perm_decompose_tail_nosp (n : Nat) :
    (List.range n ++ [n + 1, n]).Perm (List.range (n + 2)) := by
  rw [range_split n 2, show List.range' n 2 = [n, n + 1] from rfl]
  exact List.Perm.append_left (List.range n) (List.Perm.swap n (n + 1) [])

theorem perm_nspc_tail_sp (n : Nat) (hn : 2 ≤ n) :
    (List.range (n - 1) ++ [n, n - 1, n + 1, n + 2]).Perm (List.range (n + 3)) := by
  rw [show n + 3 = (n - 1) + 4 by omega, range_split (n - 1) 4,
    show List.range' (n - 1) 4 = [n - 1, n - 1 + 1, n - 1 + 2, n - 1 + 3] from rfl,
    show n - 1 + 1 = n by omega, show n - 1 + 2 = n + 1 by omega,
    show n - 1 + 3 = n + 2 by omega]
  exact List.Perm.append_left (List.range (n - 1))
    (List.Perm.swap (n - 1) n [n + 1, n + 2])

theorem perm_nspc_tail_nosp (n : Nat) (hn : 2 ≤ n) :
    (List.range (n - 1) ++ [n, n - 1, n + 1]).Perm (List.range (n + 2)) := by
  rw [show n + 2 = (n - 1) + 3 by omega, range_split (n - 1) 3,
    show List.range' (n - 1) 3 = [n - 1, n - 1 + 1, n - 1 + 2] from rfl,
    show n - 1 + 1 = n by omega, show n - 1 + 2 = n + 1 by omega]
  exact List.Perm.append_left (List.range (n - 1))
    (List.Perm.swap (n - 1) n [n + 1])

/-! ### Claim theorems -/

/-- C1, counterexample: the blocked-8 bundle with axis 1 satisfies all the
acceptance conditions of the executor constructor (supported layout,
`0 ≤ axis < rank`, `group > 0` dividing the extent at `axis`), the
constructor succeeds, yet the produced `order = [1, 0, 2, 0]` is not a
permutation of `[0, reshapedRank) = [0, 4)`: index 0 appears twice and
index 3 never. -/
theorem C1_counterexample :
    (0 ≤ exampleBlockedAxis1Attrs.axis ∧
     exampleBlockedAxis1Attrs.axis < (exampleBlockedAxis1Attrs.dataRank : Int) ∧
     0 < exampleBlockedAxis1Attrs.group ∧
     exampleBlockedAxis1Attrs.group ∣
       exampleBlockedAxis1Attrs.srcDims.getD exampleBlockedAxis1Attrs.axis.toNat 0) ∧
    ∃ p, shuffleChannelsExecutorInit exampleBlockedAxis1Attrs = Except.ok p ∧
      p.order = [1, 0, 2, 0] ∧
      ¬ (∀ j < reshapedRankOf exampleBlockedAxis1Attrs, p.order.count j = 1) := by
  exact ⟨by decide, permuteParamsOf exampleBlockedAxis1Attrs, executorInit_ok _,
    by decide, by decide⟩

/-- C1 (amended): for every attribute bundle accepted by the executor
constructor (one of the four supported layout tags, `0 ≤ axis < rank`,
`group > 0` dividing the extent at `axis`) that is not one of the
degenerate configurations the node never selects — blocked layouts with
`axis = 1` (blocked descriptors are only offered when `axis != 1`,
line 116), and channels-last with `axis = 1` and `spatialRank = 0` — the
`order` sequence of the built plan is a permutation of
`[0, reshapedRank)`: every index in that range appears exactly once. -/
theorem C1_order_is_permutation (a : ShuffleChannelsAttributes) (p : PermuteParams)
    (hok : shuffleChannelsExecutorInit a = Except.ok p)
    (hax0 : 0 ≤ a.axis) (haxr : a.axis < (a.dataRank : Int))
    (hg : 0 < a.group) (hdiv : a.group ∣ a.srcDims.getD a.axis.toNat 0)
    (hexb : ¬ ((a.layoutType = LayoutType.nCsp16c ∨ a.layoutType = LayoutType.nCsp8c) ∧
        a.axis = 1))
    (hexn : ¬ (a.layoutType = LayoutType.nspc ∧ a.axis = 1 ∧ a.spatialRank = 0)) :
    p.order.length = reshapedRankOf a ∧
    ∀ j < reshapedRankOf a, p.order.count j = 1 := by
  rw [executorInit_ok] at hok
  injection hok with hok
  subst hok
  rw [permuteParamsOf_order]
  have hax : a.axis = (a.axis.toNat : Int) := (Int.toNat_of_nonneg hax0).symm
  cases hL : a.layoutType with
  | ncsp =>
    by_cases hsp : a.spatialRank = 0
    · rw [branchState_planar_nosp a a.axis.toNat hL hax hsp]
      have hrr : reshapedRankOf a = a.axis.toNat + 2 := by
        simp [reshapedRankOf, hL, hsp]
      rw [hrr]
      exact count_of_perm_range (perm_decompose_tail_nosp a.axis.toNat)
    · rw [branchState_planar_sp a a.axis.toNat hL hax hsp]
      have hrr : reshapedRankOf a = a.axis.toNat + 3 := by
        simp [reshapedRankOf, hL, hsp]
      rw [hrr]
      exact count_of_perm_range (perm_decompose_tail_sp a.axis.toNat)
  | nspc =>
    by_cases h0 : a.axis.toNat = 0
    · rw [branchState_nspc_axis0_fst a hL (by omega)]
      by_cases hsp : a.spatialRank = 0
      · have hrr : reshapedRankOf a = 2 := by simp [reshapedRankOf, hL, hsp, h0]
        rw [hrr, if_neg (by simp [hsp])]
        exact count_of_perm_range (by decide)
      · have hrr : reshapedRankOf a = 3 := by simp [reshapedRankOf, hL, hsp, h0]
        rw [hrr, if_pos hsp]
        exact count_of_perm_range (by decide)
    · by_cases h1 : a.axis.toNat = 1
      · have hsp : a.spatialRank ≠ 0 := fun h => hexn ⟨hL, by omega, h⟩
        rw [branchState_nspc_axis1_sp_fst a hL (by omega) hsp]
        have hrr : reshapedRankOf a = 4 := by simp [reshapedRankOf, hL, hsp, h1]
        rw [hrr]
        exact count_of_perm_range (by decide)
      · have hn2 : 2 ≤ a.axis.toNat := by omega
        by_cases hsp : a.spatialRank = 0
        · rw [branchState_nspc_gt1_nosp a a.axis.toNat hL hax hn2 hsp]
          have hrr : reshapedRankOf a = a.axis.toNat + 2 := by
            simp [reshapedRankOf, hL, hsp]
          rw [hrr]
          exact count_of_perm_range (perm_nspc_tail_nosp a.axis.toNat hn2)
        · rw [branchState_nspc_gt1_sp a a.axis.toNat hL hax hn2 hsp]
          have hrr : reshapedRankOf a = a.axis.toNat + 3 := by
            simp [reshapedRankOf, hL, hsp]
          rw [hrr]
          exact count_of_perm_range (perm_nspc_tail_sp a.axis.toNat hn2)
  | nCsp8c =>
    have hbl : a.layoutType = LayoutType.nCsp16c ∨ a.layoutType = LayoutType.nCsp8c :=
      Or.inr hL
    have hrr := reshapedRank_blocked a a.axis.toNat hbl hax
    by_cases h0 : a.axis.toNat = 0
    · rw [branchState_blocked_axis0_fst a hbl (by omega), hrr, h0]
      exact count_of_perm_range (by decide)
    · by_cases h1 : a.axis.toNat = 1
      · exact absurd ⟨hbl, by omega⟩ hexb
      · rw [branchState_blocked_gt1 a a.axis.toNat hbl hax (by omega), hrr]
        exact count_of_perm_range (perm_decompose_tail_sp a.axis.toNat)
  | nCsp16c =>
    have hbl : a.layoutType = LayoutType.nCsp16c ∨ a.layoutType = LayoutType.nCsp8c :=
      Or.inl hL
    have hrr := reshapedRank_blocked a a.axis.toNat hbl hax
    by_cases h0 : a.axis.toNat = 0
    · rw [branchState_blocked_axis0_fst a hbl (by omega), hrr, h0]
      exact count_of_perm_range (by decide)
    · by_cases h1 : a.axis.toNat = 1
      · exact absurd ⟨hbl, by omega⟩ hexb
      · rw [branchState_blocked_gt1 a a.axis.toNat hbl hax (by omega), hrr]
        exact count_of_perm_range (perm_decompose_tail_sp a.axis.toNat)

theorem C1_witness :
    (0 ≤ examplePlanarAttrs.axis ∧
     examplePlanarAttrs.axis < (examplePlanarAttrs.dataRank : Int) ∧
     0 < examplePlanarAttrs.group ∧
     examplePlanarAttrs.group ∣
       examplePlanarAttrs.srcDims.getD examplePlanarAttrs.axis.toNat 0) ∧
    (permuteParamsOf examplePlanarAttrs).order.length = reshapedRankOf examplePlanarAttrs ∧
    ∀ j < reshapedRankOf examplePlanarAttrs,
      (permuteParamsOf examplePlanarAttrs).order.count j = 1 :=
  ⟨by decide,
   C1_order_is_permutation examplePlanarAttrs _ (executorInit_ok _) (by decide) (by decide)
     (by decide) (by decide) (by decide) (by decide)⟩

/-- C2, counterexample: with shape `[1,3,2,2]`, axis 1, group 2 the
shuffle-axis extent 3 is not divisible by 2, yet the executor constructor
succeeds (it performs no divisibility check); no configuration error is
raised. -/
theorem C2_counterexample :
    exampleNonDivisibleAttrs.srcDims.getD exampleNonDivisibleAttrs.axis.toNat 0 %
      exampleNonDivisibleAttrs.group ≠ 0 ∧
    (shuffleChannelsExecutorInit exampleNonDivisibleAttrs).isOk = true := by
  constructor
  · decide
  · rw [executorInit_ok]; rfl

/-- C2 (amended): the executor constructor performs no divisibility check:
for every attribute bundle whose shuffle-axis extent is not divisible by
`group`, construction still succeeds (with `groupSize` computed by
integer division); the only guard in the constructor is the layout check
of lines 169-170, which every `LayoutType` value passes. -/
theorem C2_no_divisibility_check (a : ShuffleChannelsAttributes)
    (hnd : a.srcDims.getD a.axis.toNat 0 % a.group ≠ 0) :
    (shuffleChannelsExecutorInit a).isOk = true := by
  rw [executorInit_ok]; rfl

theorem C2_witness :
    exampleNonDivisibleAttrs.srcDims.getD exampleNonDivisibleAttrs.axis.toNat 0 %
      exampleNonDivisibleAttrs.group ≠ 0 ∧
    (shuffleChannelsExecutorInit exampleNonDivisibleAttrs).isOk = true :=
  ⟨by decide, C2_no_divisibility_check exampleNonDivisibleAttrs (by decide)⟩

/-- C3: for every accepted attribute bundle the working rank of the built
plan (the length of its `order`) equals
`axis + 2 + (spatialRank != 0 ? 1 : 0) + (isBlocked && spatialRank == 0 ? 1 : 0)`;
in particular, for a Blocked8 layout with `spatialRank == 0` it equals
`axis + 3`, not `axis + 2`. -/
theorem C3_working_rank (a : ShuffleChannelsAttributes) (p : PermuteParams)
    (hok : shuffleChannelsExecutorInit a = Except.ok p)
    (hax0 : 0 ≤ a.axis) (haxr : a.axis < (a.dataRank : Int))
    (hg : 0 < a.group) (hdiv : a.group ∣ a.srcDims.getD a.axis.toNat 0) :
    p.order.length
      = a.axis.toNat + 2 + (if a.spatialRank ≠ 0 then 1 else 0) +
        (if (a.layoutType = LayoutType.nCsp16c ∨ a.layoutType = LayoutType.nCsp8c) ∧
            a.spatialRank = 0 then 1 else 0) ∧
    (a.layoutType = LayoutType.nCsp8c ∧ a.spatialRank = 0 →
      p.order.length = a.axis.toNat + 3) := by
  rw [executorInit_ok] at hok
  injection hok with hok
  subst hok
  rw [permuteParamsOf_order, (branchState_length a).1]
  constructor
  · rfl
  · rintro ⟨h8, hsp⟩
    simp [reshapedRankOf, h8, hsp]

theorem C3_witness :
    (0 ≤ exampleBlockedAttrs.axis ∧
     exampleBlockedAttrs.axis < (exampleBlockedAttrs.dataRank : Int) ∧
     0 < exampleBlockedAttrs.group ∧
     exampleBlockedAttrs.group ∣
       exampleBlockedAttrs.srcDims.getD exampleBlockedAttrs.axis.toNat 0) ∧
    (permuteParamsOf exampleBlockedAttrs).order.length
      = exampleBlockedAttrs.axis.toNat + 2 +
        (if exampleBlockedAttrs.spatialRank ≠ 0 then 1 else 0) +
        (if (exampleBlockedAttrs.layoutType = LayoutType.nCsp16c ∨
             exampleBlockedAttrs.layoutType = LayoutType.nCsp8c) ∧
            exampleBlockedAttrs.spatialRank = 0 then 1 else 0) ∧
    (exampleBlockedAttrs.layoutType = LayoutType.nCsp8c ∧
        exampleBlockedAttrs.spatialRank = 0 →
      (permuteParamsOf exampleBlockedAttrs).order.length
        = exampleBlockedAttrs.axis.toNat + 3) :=
  ⟨by decide,
   C3_working_rank exampleBlockedAttrs _ (executorInit_ok _) (by decide) (by decide)
     (by decide) (by decide)⟩

/-- C6: for every accepted attribute bundle and every `i` below the working
rank of the built plan, `dstBlockDims[i] = srcBlockDims[order[i]]`
(line 271-272 of the constructor). -/
theorem C6_dst_dims_consistency (a : ShuffleChannelsAttributes) (p : PermuteParams)
    (hok : shuffleChannelsExecutorInit a = Except.ok p)
    (hax0 : 0 ≤ a.axis) (haxr : a.axis < (a.dataRank : Int))
    (hg : 0 < a.group) (hdiv : a.group ∣ a.srcDims.getD a.axis.toNat 0) :
    ∀ i < p.order.length,
      p.dst_block_dims.getD i 0 = p.src_block_dims.getD (p.order.getD i 0) 0 := by
  rw [executorInit_ok] at hok
  injection hok with hok
  subst hok
  intro i hi
  rw [permuteParamsOf_order] at hi
  rw [(branchState_length a).1] at hi
  rw [permuteParamsOf_dst, permuteParamsOf_order, permuteParamsOf_src]
  rw [List.getD_eq_getElem _ _ (by simpa using hi)]
  rw [List.getElem_map]
  rw [List.getElem_range]

theorem C6_witness :
    (0 ≤ examplePlanarAttrs.axis ∧
     examplePlanarAttrs.axis < (examplePlanarAttrs.dataRank : Int) ∧
     0 < examplePlanarAttrs.group ∧
     examplePlanarAttrs.group ∣
       examplePlanarAttrs.srcDims.getD examplePlanarAttrs.axis.toNat 0) ∧
    ∀ i < (permuteParamsOf examplePlanarAttrs).order.length,
      (permuteParamsOf examplePlanarAttrs).dst_block_dims.getD i 0
        = (permuteParamsOf examplePlanarAttrs).src_block_dims.getD
            ((permuteParamsOf examplePlanarAttrs).order.getD i 0) 0 :=
  ⟨by decide,
   C6_dst_dims_consistency examplePlanarAttrs _ (executorInit_ok _) (by decide) (by decide)
     (by decide) (by decide)⟩

/-- C8: constructing attributes with `axis = -1` at rank 4 yields the same
normalized axis (3), the same attribute bundle and hence the same derived
plan as constructing with `axis = 3` at rank 4 (lines 79-80). -/
theorem C8_negative_axis_normalization (group : Nat) (layout : LayoutType)
    (dataSize : Nat) (srcDims srcBlockedDims : List Nat) :
    (makeNodeAttrs group (-1) 4 layout dataSize srcDims srcBlockedDims).axis = 3 ∧
    makeNodeAttrs group (-1) 4 layout dataSize srcDims srcBlockedDims
      = makeNodeAttrs group 3 4 layout dataSize srcDims srcBlockedDims ∧
    shuffleChannelsExecutorInit
        (makeNodeAttrs group (-1) 4 layout dataSize srcDims srcBlockedDims)
      = shuffleChannelsExecutorInit
          (makeNodeAttrs group 3 4 layout dataSize srcDims srcBlockedDims) :=
  ⟨rfl, rfl, rfl⟩

/-- C10: `exec` dispatches to the batch-override entry point exactly when
`MB > 0`; in particular `MB = 0`, like any negative value, falls through to
the plain call, which runs with the plan's own axis-0 extent (lines
281-284). -/
theorem C10_batch_override_dispatch (p : PermuteParams) (src : Nat → Nat) :
    (∀ MB : Int, shuffleChannelsExecutorExec (some p) src MB
        = Except.ok (permuteKernelExecute p src
            (if 0 < MB then some MB.toNat else none))) ∧
    shuffleChannelsExecutorExec (some p) src 0
      = Except.ok (permuteKernelExecute p src none) := by
  constructor
  · intro MB
    by_cases h : 0 < MB
    · simp [shuffleChannelsExecutorExec, h]
    · simp [shuffleChannelsExecutorExec, h]
  · rfl

/-- C4: on the planar rank-4 configuration `shape=[1,4,2,2]`, axis 1,
group 2, element size 4, executing the derived plan maps destination byte
`t` to source byte `perm[t/16]*16 + t%16` with `perm = [0,2,1,3]`: the four
16-byte channels are reordered `c0,c2,c1,c3` and each channel's 2x2 spatial
block is copied byte-for-byte unchanged, for every source buffer. -/
theorem C4_concrete_copy (src : Nat → Nat) :
    shuffleChannelsExecutorInit examplePlanarAttrs
      = Except.ok (permuteParamsOf examplePlanarAttrs) ∧
    permuteKernelExecute (permuteParamsOf examplePlanarAttrs) src none
      = (List.range 64).map
          (fun t => src ([0, 2, 1, 3].getD (t / 16) 0 * 16 + t % 16)) := by
  refine ⟨executorInit_ok _, ?_⟩
  have hkey : ∀ t < 64, permByteMap (permuteParamsOf examplePlanarAttrs) t
      = [0, 2, 1, 3].getD (t / 16) 0 * 16 + t % 16 := by decide
  show (List.range 64).map
      (fun t => src (permByteMap (permuteParamsOf examplePlanarAttrs) t)) = _
  exact List.map_congr_left (fun t ht => congrArg src (hkey t (List.mem_range.mp ht)))

/-- C7: for every accepted channels-last bundle with `axis > 1`, the plan
routes the logical channel axis to the last reshaped position:
`order[reshapedRank-1] = reshapedRank-1` with
`srcBlockDims[reshapedRank-1] = shape[1]`, while logical axes
`2 .. axis-1` shift down by one in the prefix (lines 232-250). -/
theorem C7_channels_last_tail (a : ShuffleChannelsAttributes) (p : PermuteParams)
    (hok : shuffleChannelsExecutorInit a = Except.ok p)
    (hl : a.layoutType = LayoutType.nspc)
    (hax0 : 0 ≤ a.axis) (haxgt : 1 < a.axis) (haxr : a.axis < (a.dataRank : Int))
    (hg : 0 < a.group) (hdiv : a.group ∣ a.srcDims.getD a.axis.toNat 0) :
    p.order.getD (reshapedRankOf a - 1) 0 = reshapedRankOf a - 1 ∧
    p.src_block_dims.getD (reshapedRankOf a - 1) 0 = a.srcDims.getD 1 0 ∧
    ∀ i, 2 ≤ i → i < a.axis.toNat →
      p.order.getD (i - 1) 0 = i - 1 ∧
      p.src_block_dims.getD (i - 1) 0 = a.srcDims.getD i 0 := by
  rw [executorInit_ok] at hok
  injection hok with hok
  subst hok
  rw [permuteParamsOf_order, permuteParamsOf_src]
  have hax : a.axis = (a.axis.toNat : Int) := (Int.toNat_of_nonneg hax0).symm
  have hn2 : 2 ≤ a.axis.toNat := by omega
  set n := a.axis.toNat with hnn
  by_cases hsp : a.spatialRank = 0
  · have hrr : reshapedRankOf a = n + 2 := by simp [reshapedRankOf, hl, hsp]
    rw [branchState_nspc_gt1_nosp a n hl hax hn2 hsp, hrr]
    dsimp only
    refine ⟨?_, ?_, ?_⟩
    · rw [show n + 2 - 1 = n + 1 from rfl,
        List.getD_append_right _ _ _ _ (by simp only [List.length_map, List.length_range', List.length_range]; omega),
        show n + 1 - (List.range (n - 1)).length = 2 by simp only [List.length_map, List.length_range', List.length_range]; omega]
      rfl
    · rw [show n + 2 - 1 = n + 1 from rfl,
        show (n + 1 : Nat) = (n) + 1 from rfl, List.getD_cons_succ,
        List.getD_append_right _ _ _ _ (by simp only [List.length_map, List.length_range', List.length_range]; omega),
        show n - ((List.range' 2 (n - 2)).map (fun i => a.srcDims.getD i 0)).length = 2
          by simp only [List.length_map, List.length_range', List.length_range]; omega]
      rfl
    · intro i h2 hin
      constructor
      · rw [List.getD_append _ _ _ _ (by simp only [List.length_map, List.length_range', List.length_range]; omega),
          List.getD_eq_getElem _ _ (by simp only [List.length_map, List.length_range', List.length_range]; omega), List.getElem_range]
      · rw [show i - 1 = (i - 2) + 1 by omega, List.getD_cons_succ,
          List.getD_append _ _ _ _ (by simp only [List.length_map, List.length_range', List.length_range]; omega),
          List.getD_eq_getElem _ _ (by simp only [List.length_map, List.length_range', List.length_range]; omega), List.getElem_map,
          List.getElem_range']
        simp only [one_mul]
        rw [show 2 + (i - 2) = i by omega]
  · have hrr : reshapedRankOf a = n + 3 := by simp [reshapedRankOf, hl, hsp]
    rw [branchState_nspc_gt1_sp a n hl hax hn2 hsp, hrr]
    dsimp only
    refine ⟨?_, ?_, ?_⟩
    · rw [show n + 3 - 1 = n + 2 from rfl,
        List.getD_append_right _ _ _ _ (by simp only [List.length_map, List.length_range', List.length_range]; omega),
        show n + 2 - (List.range (n - 1)).length = 3 by simp only [List.length_map, List.length_range', List.length_range]; omega]
      rfl
    · rw [show n + 3 - 1 = n + 2 from rfl,
        show (n + 2 : Nat) = (n + 1) + 1 from rfl, List.getD_cons_succ,
        List.getD_append_right _ _ _ _ (by simp only [List.length_map, List.length_range', List.length_range]; omega),
        show n + 1 - ((List.range' 2 (n - 2)).map (fun i => a.srcDims.getD i 0)).length = 3
          by simp only [List.length_map, List.length_range', List.length_range]; omega]
      rfl
    · intro i h2 hin
      constructor
      · rw [List.getD_append _ _ _ _ (by simp only [List.length_map, List.length_range', List.length_range]; omega),
          List.getD_eq_getElem _ _ (by simp only [List.length_map, List.length_range', List.length_range]; omega), List.getElem_range]
      · rw [show i - 1 = (i - 2) + 1 by omega, List.getD_cons_succ,
          List.getD_append _ _ _ _ (by simp only [List.length_map, List.length_range', List.length_range]; omega),
          List.getD_eq_getElem _ _ (by simp only [List.length_map, List.length_range', List.length_range]; omega), List.getElem_map,
          List.getElem_range']
        simp only [one_mul]
        rw [show 2 + (i - 2) = i by omega]

theorem C7_witness :
    (exampleChannelsLastAttrs.layoutType = LayoutType.nspc ∧
     0 ≤ exampleChannelsLastAttrs.axis ∧ 1 < exampleChannelsLastAttrs.axis ∧
     exampleChannelsLastAttrs.axis < (exampleChannelsLastAttrs.dataRank : Int) ∧
     0 < exampleChannelsLastAttrs.group ∧
     exampleChannelsLastAttrs.group ∣
       exampleChannelsLastAttrs.srcDims.getD exampleChannelsLastAttrs.axis.toNat 0) ∧
    (permuteParamsOf exampleChannelsLastAttrs).order.getD
        (reshapedRankOf exampleChannelsLastAttrs - 1) 0
      = reshapedRankOf exampleChannelsLastAttrs - 1 ∧
    (permuteParamsOf exampleChannelsLastAttrs).src_block_dims.getD
        (reshapedRankOf exampleChannelsLastAttrs - 1) 0
      = exampleChannelsLastAttrs.srcDims.getD 1 0 ∧
    ∀ i, 2 ≤ i → i < exampleChannelsLastAttrs.axis.toNat →
      (permuteParamsOf exampleChannelsLastAttrs).order.getD (i - 1) 0 = i - 1 ∧
      (permuteParamsOf exampleChannelsLastAttrs).src_block_dims.getD (i - 1) 0
        = exampleChannelsLastAttrs.srcDims.getD i 0 :=
  ⟨by decide,
   C7_channels_last_tail exampleChannelsLastAttrs _ (executorInit_ok _) (by decide)
     (by decide) (by decide) (by decide) (by decide) (by decide)⟩

/-! ### Multi-index and stride lemmas for the modelled kernel -/

theorem length_multiIndex : ∀ (ds : List Nat) (e : Nat),
    (multiIndex ds e).length = ds.length := by
  intro ds
  induction ds with
  | nil => intro e; rfl
  | cons d ds ih => intro e; simp [multiIndex, ih]

theorem linRM_multiIndex : ∀ (ds : List Nat) (e : Nat), e < ds.prod →
    linRM ds (multiIndex ds e) = e := by
  intro ds
  induction ds with
  | nil =>
    intro e he
    simp only [List.prod_nil] at he
    interval_cases e
    rfl
  | cons d ds ih =>
    intro e he
    simp only [multiIndex, linRM]
    have hP : 0 < ds.prod := by
      rcases Nat.eq_zero_or_pos ds.prod with h | h
      · rw [List.prod_cons, h, Nat.mul_zero] at he; omega
      · exact h
    rw [ih _ (Nat.mod_lt _ hP), Nat.mul_comm]
    exact Nat.div_add_mod e ds.prod

theorem multiIndex_append : ∀ (D T : List Nat) (e : Nat), e < (D ++ T).prod →
    multiIndex (D ++ T) e
      = multiIndex D (e / T.prod) ++ multiIndex T (e % T.prod) := by
  intro D
  induction D with
  | nil =>
    intro T e he
    simp only [List.nil_append] at he ⊢
    rw [Nat.mod_eq_of_lt he]
    rfl
  | cons d D ih =>
    intro T e he
    have hQ : (D ++ T).prod = T.prod * D.prod := by
      rw [List.prod_append, Nat.mul_comm]
    have hQpos : 0 < (D ++ T).prod := by
      rcases Nat.eq_zero_or_pos (D ++ T).prod with h | h
      · exfalso
        rw [List.cons_append, List.prod_cons, h, Nat.mul_zero] at he
        omega
      · exact h
    rw [List.cons_append,
      show multiIndex (d :: (D ++ T)) e
          = e / (D ++ T).prod :: multiIndex (D ++ T) (e % (D ++ T).prod) from rfl,
      show multiIndex (d :: D) (e / T.prod)
          = (e / T.prod) / D.prod :: multiIndex D ((e / T.prod) % D.prod) from rfl,
      List.cons_append]
    rw [ih T (e % (D ++ T).prod) (Nat.mod_lt _ hQpos)]
    congr 1
    · rw [hQ, Nat.div_div_eq_div_mul]
    · congr 1
      · rw [hQ, Nat.mod_mul_right_div_self]
      · rw [hQ, Nat.mod_mod_of_dvd _ ⟨D.prod, rfl⟩]

theorem stridesSum_append (src : List Nat) :
    ∀ (i1 o1 i2 o2 : List Nat), i1.length = o1.length →
      stridesSum src (i1 ++ i2) (o1 ++ o2)
        = stridesSum src i1 o1 + stridesSum src i2 o2 := by
  intro i1
  induction i1 with
  | nil =>
    intro o1 i2 o2 h
    have : o1 = [] := List.length_eq_zero.mp h.symm
    subst this
    simp [stridesSum]
  | cons x i1 ih =>
    intro o1 i2 o2 h
    cases o1 with
    | nil => simp at h
    | cons m o1 =>
      rw [List.cons_append, List.cons_append,
        show stridesSum src (x :: (i1 ++ i2)) (m :: (o1 ++ o2))
            = x * (src.drop (m + 1)).prod + stridesSum src (i1 ++ i2) (o1 ++ o2) from rfl,
        show stridesSum src (x :: i1) (m :: o1)
            = x * (src.drop (m + 1)).prod + stridesSum src i1 o1 from rfl]
      rw [ih o1 i2 o2 (by simpa using h)]
      omega

theorem stridesSum_range' (A B : List Nat) :
    ∀ (i : List Nat) (k : Nat), k + i.length ≤ A.length →
      stridesSum (A ++ B) i (List.range' k i.length)
        = B.prod * linRM (A.drop k) i := by
  intro i
  induction i with
  | nil =>
    intro k h
    have : linRM (A.drop k) [] = 0 := by
      cases A.drop k <;> rfl
    simp [stridesSum, this]
  | cons x i ih =>
    intro k h
    simp only [List.length_cons] at h ⊢
    rw [List.range'_succ]
    simp only [stridesSum]
    rw [List.drop_append_of_le_length (by omega), List.prod_append]
    rw [ih (k + 1) (by omega)]
    rw [List.drop_eq_getElem_cons (show k < A.length by omega)]
    simp only [linRM]
    ring

/-! ### The planar plan in explicit form -/

theorem foldl_mul_range' (l : List Nat) :
    ∀ (m s acc : Nat), s + m ≤ l.length →
      (List.range' s m).foldl (fun t i => t * l.getD i 0) acc
        = acc * ((l.drop s).take m).prod := by
  intro m
  induction m with
  | zero => intro s acc _; simp
  | succ m ih =>
    intro s acc h
    rw [List.range'_succ]
    simp only [List.foldl_cons]
    rw [ih (s + 1) _ (by omega)]
    rw [List.drop_eq_getElem_cons (show s < l.length by omega)]
    rw [List.take_succ_cons, List.prod_cons]
    rw [List.getD_eq_getElem _ _ (by omega)]
    ring

theorem spatialShapeSizeOf_planar (a : ShuffleChannelsAttributes) (n : Nat)
    (hax : a.axis = (n : Int)) (hlen : a.srcDims.length = a.dataRank)
    (hspr : a.spatialRank = a.dataRank - n - 1) (hn : n < a.dataRank) :
    spatialShapeSizeOf a = (a.srcDims.drop (n + 1)).prod := by
  unfold spatialShapeSizeOf
  rw [hax, Int.toNat_natCast]
  by_cases hsp : a.spatialRank = 0
  · rw [if_neg (by simp [hsp] : ¬ a.spatialRank ≠ 0)]
    rw [List.drop_eq_nil_of_le (by omega : a.srcDims.length ≤ n + 1)]
    rfl
  · rw [if_pos hsp]
    rw [foldl_mul_range' a.srcDims (a.dataRank - (n + 1)) (n + 1) 1 (by omega)]
    rw [Nat.one_mul]
    rw [show a.dataRank - (n + 1) = (a.srcDims.drop (n + 1)).length by
      rw [List.length_drop, hlen]]
    rw [List.take_length]

theorem srcDims_split (a : ShuffleChannelsAttributes) (n : Nat)
    (hlen : a.srcDims.length = a.dataRank) (hn : n < a.dataRank) :
    a.srcDims = a.srcDims.take n
      ++ a.srcDims.getD n 0 :: a.srcDims.drop (n + 1) := by
  conv_lhs => rw [← List.take_append_drop n a.srcDims]
  congr 1
  rw [List.drop_eq_getElem_cons (show n < a.srcDims.length by omega)]
  rw [List.getD_eq_getElem _ _ (by omega)]

theorem map_getD_range (l : List Nat) (n : Nat) (hn : n ≤ l.length) :
    (List.range n).map (fun i => l.getD i 0) = l.take n := by
  apply List.ext_getElem
  · simp [hn]
  · intro i h1 h2
    simp only [List.getElem_map, List.getElem_range, List.getElem_take]
    rw [List.getD_eq_getElem]

theorem planar_plan_sp (a : ShuffleChannelsAttributes) (n : Nat)
    (hl : a.layoutType = LayoutType.ncsp) (hax : a.axis = (n : Int))
    (hsp : a.spatialRank ≠ 0) :
    (permuteParamsOf a).order = List.range n ++ [n + 1, n, n + 2] ∧
    (permuteParamsOf a).src_block_dims
      = (List.range n).map (fun i => a.srcDims.getD i 0)
        ++ [a.group, groupSizeOf a, spatialShapeSizeOf a] ∧
    (permuteParamsOf a).dst_block_dims
      = (List.range n).map (fun i => a.srcDims.getD i 0)
        ++ [groupSizeOf a, a.group, spatialShapeSizeOf a] := by
  have hch := branchState_planar_sp a n hl hax hsp
  have hrr : reshapedRankOf a = n + 3 := by simp [reshapedRankOf, hl, hsp, hax]
  have hord : (permuteParamsOf a).order = List.range n ++ [n + 1, n, n + 2] := by
    rw [permuteParamsOf_order, hch]
  have hsrc : (permuteParamsOf a).src_block_dims
      = (List.range n).map (fun i => a.srcDims.getD i 0)
        ++ [a.group, groupSizeOf a, spatialShapeSizeOf a] := by
    rw [permuteParamsOf_src, hch]
  have e1 : (List.range n ++ [n + 1, n, n + 2]).getD n 0 = n + 1 := by
    rw [List.getD_append_right _ _ _ _ (by simp)]
    simp
  have e2 : (List.range n ++ [n + 1, n, n + 2]).getD (n + 1) 0 = n := by
    rw [List.getD_append_right _ _ _ _ (by simp)]
    simp
  have e3 : (List.range n ++ [n + 1, n, n + 2]).getD (n + 2) 0 = n + 2 := by
    rw [List.getD_append_right _ _ _ _ (by simp)]
    simp
  have hDmlen : ((List.range n).map (fun i => a.srcDims.getD i 0)).length = n := by
    simp
  have d1 : ((List.range n).map (fun i => a.srcDims.getD i 0)
      ++ [a.group, groupSizeOf a, spatialShapeSizeOf a]).getD (n + 1) 0
      = groupSizeOf a := by
    rw [List.getD_append_right _ _ _ _ (by simp)]
    simp
  have d2 : ((List.range n).map (fun i => a.srcDims.getD i 0)
      ++ [a.group, groupSizeOf a, spatialShapeSizeOf a]).getD n 0 = a.group := by
    rw [List.getD_append_right _ _ _ _ (by simp)]
    simp
  have d3 : ((List.range n).map (fun i => a.srcDims.getD i 0)
      ++ [a.group, groupSizeOf a, spatialShapeSizeOf a]).getD (n + 2) 0
      = spatialShapeSizeOf a := by
    rw [List.getD_append_right _ _ _ _ (by simp)]
    simp
  refine ⟨hord, hsrc, ?_⟩
  rw [permuteParamsOf_dst, hrr, hch]
  dsimp only
  rw [range_split n 3, show List.range' n 3 = [n, n + 1, n + 2] from rfl,
    List.map_append]
  congr 1
  · apply List.map_congr_left
    intro i hi
    have hin : i < n := List.mem_range.mp hi
    have hordD : (List.range n ++ [n + 1, n, n + 2]).getD i 0 = i := by
      rw [List.getD_append _ _ _ _ (by simpa using hin)]
      rw [List.getD_eq_getElem _ _ (by simpa using hin), List.getElem_range]
    rw [hordD]
    rw [List.getD_append _ _ _ _ (by simp [hin])]
    rw [List.getD_eq_getElem _ _ (by simp [hin]), List.getElem_map,
      List.getElem_range]
  · simp only [List.map_cons, List.map_nil]
    rw [e1, e2, e3, d1, d2, d3]

theorem planar_plan_nosp (a : ShuffleChannelsAttributes) (n : Nat)
    (hl : a.layoutType = LayoutType.ncsp) (hax : a.axis = (n : Int))
    (hsp : a.spatialRank = 0) :
    (permuteParamsOf a).order = List.range n ++ [n + 1, n] ∧
    (permuteParamsOf a).src_block_dims
      = (List.range n).map (fun i => a.srcDims.getD i 0)
        ++ [a.group, groupSizeOf a] ∧
    (permuteParamsOf a).dst_block_dims
      = (List.range n).map (fun i => a.srcDims.getD i 0)
        ++ [groupSizeOf a, a.group] := by
  have hch := branchState_planar_nosp a n hl hax hsp
  have hrr : reshapedRankOf a = n + 2 := by simp [reshapedRankOf, hl, hsp, hax]
  have hord : (permuteParamsOf a).order = List.range n ++ [n + 1, n] := by
    rw [permuteParamsOf_order, hch]
  have hsrc : (permuteParamsOf a).src_block_dims
      = (List.range n).map (fun i => a.srcDims.getD i 0)
        ++ [a.group, groupSizeOf a] := by
    rw [permuteParamsOf_src, hch]
  have e1 : (List.range n ++ [n + 1, n]).getD n 0 = n + 1 := by
    rw [List.getD_append_right _ _ _ _ (by simp)]
    simp
  have e2 : (List.range n ++ [n + 1, n]).getD (n + 1) 0 = n := by
    rw [List.getD_append_right _ _ _ _ (by simp)]
    simp
  have d1 : ((List.range n).map (fun i => a.srcDims.getD i 0)
      ++ [a.group, groupSizeOf a]).getD (n + 1) 0 = groupSizeOf a := by
    rw [List.getD_append_right _ _ _ _ (by simp)]
    simp
  have d2 : ((List.range n).map (fun i => a.srcDims.getD i 0)
      ++ [a.group, groupSizeOf a]).getD n 0 = a.group := by
    rw [List.getD_append_right _ _ _ _ (by simp)]
    simp
  refine ⟨hord, hsrc, ?_⟩
  rw [permuteParamsOf_dst, hrr, hch]
  dsimp only
  rw [range_split n 2, show List.range' n 2 = [n, n + 1] from rfl,
    List.map_append]
  congr 1
  · apply List.map_congr_left
    intro i hi
    have hin : i < n := List.mem_range.mp hi
    have hordD : (List.range n ++ [n + 1, n]).getD i 0 = i := by
      rw [List.getD_append _ _ _ _ (by simpa using hin)]
      rw [List.getD_eq_getElem _ _ (by simpa using hin), List.getElem_range]
    rw [hordD]
    rw [List.getD_append _ _ _ _ (by simp [hin])]
    rw [List.getD_eq_getElem _ _ (by simp [hin]), List.getElem_map,
      List.getElem_range]
  · simp only [List.map_cons, List.map_nil]
    rw [e1, e2, d1, d2]

theorem stridesSum_range (A B : List Nat) (i : List Nat) (m : Nat)
    (hm : i.length = m) (h : m ≤ A.length) :
    stridesSum (A ++ B) i (List.range m) = B.prod * linRM A i := by
  subst hm
  rw [List.range_eq_range']
  have h0 := stridesSum_range' A B i 0 (by omega)
  simpa using h0

theorem stridesSum_planar_sp (Dl : List Nat) (g gs S C n : Nat)
    (hDlen : Dl.length = n) (hgg : g * gs = C) :
    ∀ e, e < Dl.prod * (C * S) →
      stridesSum (Dl ++ [g, gs, S]) (multiIndex (Dl ++ [gs, g, S]) e)
        (List.range n ++ [n + 1, n, n + 2])
        = planarChannelMap C S g gs e := by
  intro e he
  have hCS : 0 < C * S := by
    rcases Nat.eq_zero_or_pos (C * S) with h | h
    · rw [h, Nat.mul_zero] at he; omega
    · exact h
  have hTp : ([gs, g, S] : List Nat).prod = C * S := by
    simp only [List.prod_cons, List.prod_nil, Nat.mul_one]
    rw [← Nat.mul_assoc, Nat.mul_comm gs g, hgg]
  have hTs : ([g, gs, S] : List Nat).prod = C * S := by
    simp only [List.prod_cons, List.prod_nil, Nat.mul_one]
    rw [← Nat.mul_assoc, hgg]
  have he' : e < (Dl ++ [gs, g, S]).prod := by
    rw [List.prod_append, hTp]; exact he
  rw [multiIndex_append Dl [gs, g, S] e he', hTp]
  rw [show multiIndex [gs, g, S] (e % (C * S))
      = [e % (C * S) / (g * S), e % (C * S) % (g * S) / S,
         e % (C * S) % (g * S) % S] by
    simp [multiIndex, List.prod_cons, List.prod_nil, Nat.mul_one]]
  rw [stridesSum_append _ _ _ _ _ (by rw [length_multiIndex, hDlen]; simp)]
  rw [stridesSum_range Dl [g, gs, S] _ n (by rw [length_multiIndex, hDlen])
    (by omega)]
  rw [linRM_multiIndex Dl _ ((Nat.div_lt_iff_lt_mul hCS).mpr he)]
  simp only [stridesSum]
  have hd2 : (Dl ++ [g, gs, S]).drop (n + 1) = [gs, S] := by
    rw [show n + 1 = Dl.length + 1 by omega, List.drop_append]; rfl
  have hd1 : (Dl ++ [g, gs, S]).drop (n + 1 + 1) = [S] := by
    rw [show n + 1 + 1 = Dl.length + 2 by omega, List.drop_append]; rfl
  have hd3 : (Dl ++ [g, gs, S]).drop (n + 2 + 1) = ([] : List Nat) := by
    rw [show n + 2 + 1 = Dl.length + 3 by omega, List.drop_append]; rfl
  rw [hd1, hd2, hd3, hTs]
  simp only [List.prod_cons, List.prod_nil, Nat.mul_one]
  have c1 : e % (C * S) / (g * S) = e % (C * S) / S / g := by
    rw [Nat.div_div_eq_div_mul, Nat.mul_comm S g]
  have c2 : e % (C * S) % (g * S) / S = e % (C * S) / S % g :=
    Nat.mod_mul_left_div_self _ _ _
  have c3 : e % (C * S) % (g * S) % S = e % S := by
    rw [Nat.mod_mod_of_dvd _ ⟨g, Nat.mul_comm g S⟩]
    exact Nat.mod_mod_of_dvd _ ⟨C, Nat.mul_comm C S⟩
  rw [c1, c2, c3]
  unfold planarChannelMap
  ring

theorem stridesSum_planar_nosp (Dl : List Nat) (g gs C n : Nat)
    (hDlen : Dl.length = n) (hgg : g * gs = C) :
    ∀ e, e < Dl.prod * C →
      stridesSum (Dl ++ [g, gs]) (multiIndex (Dl ++ [gs, g]) e)
        (List.range n ++ [n + 1, n])
        = planarChannelMap C 1 g gs e := by
  intro e he
  have hC : 0 < C := by
    rcases Nat.eq_zero_or_pos C with h | h
    · rw [h, Nat.mul_zero] at he; omega
    · exact h
  have hTp : ([gs, g] : List Nat).prod = C := by
    simp only [List.prod_cons, List.prod_nil, Nat.mul_one]
    rw [Nat.mul_comm gs g, hgg]
  have hTs : ([g, gs] : List Nat).prod = C := by
    simp only [List.prod_cons, List.prod_nil, Nat.mul_one]
    rw [hgg]
  have he' : e < (Dl ++ [gs, g]).prod := by
    rw [List.prod_append, hTp]; exact he
  rw [multiIndex_append Dl [gs, g] e he', hTp]
  rw [show multiIndex [gs, g] (e % C) = [e % C / g, e % C % g] by
    simp [multiIndex, List.prod_cons, List.prod_nil, Nat.mul_one]]
  rw [stridesSum_append _ _ _ _ _ (by rw [length_multiIndex, hDlen]; simp)]
  rw [stridesSum_range Dl [g, gs] _ n (by rw [length_multiIndex, hDlen])
    (by omega)]
  rw [linRM_multiIndex Dl _ ((Nat.div_lt_iff_lt_mul hC).mpr he)]
  simp only [stridesSum]
  have hd2 : (Dl ++ [g, gs]).drop (n + 1) = [gs] := by
    rw [show n + 1 = Dl.length + 1 by omega, List.drop_append]; rfl
  have hd1 : (Dl ++ [g, gs]).drop (n + 1 + 1) = ([] : List Nat) := by
    rw [show n + 1 + 1 = Dl.length + 2 by omega, List.drop_append]; rfl
  rw [hd1, hd2, hTs]
  simp only [List.prod_cons, List.prod_nil, Nat.mul_one]
  unfold planarChannelMap
  simp only [Nat.mul_one, Nat.div_one, Nat.mod_one]
  ring

theorem permuteLin_planar (a : ShuffleChannelsAttributes) (n : Nat)
    (hl : a.layoutType = LayoutType.ncsp) (hax : a.axis = (n : Int))
    (hlen : a.srcDims.length = a.dataRank)
    (hspr : a.spatialRank = a.dataRank - n - 1) (hn : n < a.dataRank)
    (hg : 0 < a.group) (hdiv : a.group ∣ a.srcDims.getD n 0) :
    ∀ e, e < a.srcDims.prod →
      permuteLin (permuteParamsOf a) e
        = planarChannelMap (a.srcDims.getD n 0) ((a.srcDims.drop (n + 1)).prod)
            a.group (a.srcDims.getD n 0 / a.group) e := by
  intro e he
  have hgs : groupSizeOf a = a.srcDims.getD n 0 / a.group := by
    unfold groupSizeOf; rw [hax, Int.toNat_natCast]
  have hgg : a.group * (a.srcDims.getD n 0 / a.group) = a.srcDims.getD n 0 :=
    Nat.mul_div_cancel' hdiv
  have hDm := map_getD_range a.srcDims n (by omega)
  have hDlen : (a.srcDims.take n).length = n := by
    rw [List.length_take, hlen]; omega
  have hprod : a.srcDims.prod
      = (a.srcDims.take n).prod
        * (a.srcDims.getD n 0 * (a.srcDims.drop (n + 1)).prod) := by
    conv_lhs => rw [srcDims_split a n hlen hn]
    rw [List.prod_append, List.prod_cons]
  by_cases hsp : a.spatialRank = 0
  · obtain ⟨hord, hsrc, hdst⟩ := planar_plan_nosp a n hl hax hsp
    have hS1 : (a.srcDims.drop (n + 1)).prod = 1 := by
      rw [List.drop_eq_nil_of_le (by omega)]; rfl
    unfold permuteLin
    rw [hord, hsrc, hdst, hDm, hgs]
    rw [stridesSum_planar_nosp (a.srcDims.take n) a.group
      (a.srcDims.getD n 0 / a.group) (a.srcDims.getD n 0) n hDlen hgg e
      (by rw [hprod, hS1, Nat.mul_one] at he; exact he)]
    rw [hS1]
  · obtain ⟨hord, hsrc, hdst⟩ := planar_plan_sp a n hl hax hsp
    have hSS := spatialShapeSizeOf_planar a n hax hlen hspr hn
    unfold permuteLin
    rw [hord, hsrc, hdst, hDm, hgs, hSS]
    exact stridesSum_planar_sp (a.srcDims.take n) a.group
      (a.srcDims.getD n 0 / a.group) ((a.srcDims.drop (n + 1)).prod)
      (a.srcDims.getD n 0) n hDlen hgg e (by rw [hprod] at he; exact he)

theorem planarChannelMap_lt (C S g gs N e : Nat) (hg : 0 < g)
    (hgg : g * gs = C) (he : e < N * (C * S)) :
    planarChannelMap C S g gs e < N * (C * S) := by
  have hCS : 0 < C * S := by
    rcases Nat.eq_zero_or_pos (C * S) with h | h
    · rw [h, Nat.mul_zero] at he; omega
    · exact h
  have hC : 0 < C := by
    rcases Nat.eq_zero_or_pos C with h | h
    · rw [h, Nat.zero_mul] at hCS; omega
    · exact h
  have hS : 0 < S := by
    rcases Nat.eq_zero_or_pos S with h | h
    · rw [h, Nat.mul_zero] at hCS; omega
    · exact h
  have hN : 0 < N := by
    rcases Nat.eq_zero_or_pos N with h | h
    · rw [h, Nat.zero_mul] at he; omega
    · exact h
  have hgsp : 0 < gs := by
    rcases Nat.eq_zero_or_pos gs with h | h
    · rw [h, Nat.mul_zero] at hgg; omega
    · exact h
  have hb : e / (C * S) < N := (Nat.div_lt_iff_lt_mul hCS).mpr he
  have hmod : e % (C * S) < C * S := Nat.mod_lt _ hCS
  have hc : e % (C * S) / S < C := (Nat.div_lt_iff_lt_mul hS).mpr hmod
  have hcg : e % (C * S) / S / g < gs := by
    apply (Nat.div_lt_iff_lt_mul hg).mpr
    rw [Nat.mul_comm gs g, hgg]
    exact hc
  have hcm : e % (C * S) / S % g < g := Nat.mod_lt _ hg
  have hs : e % S < S := Nat.mod_lt _ hS
  have hmul : (e % (C * S) / S % g) * gs ≤ (g - 1) * gs :=
    Nat.mul_le_mul_right _ (by omega)
  have hsub : (g - 1) * gs = C - gs := by
    rw [Nat.sub_mul, Nat.one_mul, hgg]
  have hgsC : gs ≤ C := by
    calc gs = 1 * gs := (Nat.one_mul gs).symm
      _ ≤ g * gs := Nat.mul_le_mul_right _ hg
      _ = C := hgg
  unfold planarChannelMap
  have key : (e % (C * S) / S / g) * S + (e % (C * S) / S % g) * (gs * S) + e % S
      < C * S := by
    have h1 : (e % (C * S) / S / g) * S + (e % (C * S) / S % g) * (gs * S)
        = (e % (C * S) / S / g + (e % (C * S) / S % g) * gs) * S := by ring
    have h2 : (e % (C * S) / S / g + (e % (C * S) / S % g) * gs) * S
        ≤ (C - 1) * S := Nat.mul_le_mul_right _ (by omega)
    have h3 : (C - 1) * S + S = C * S := by
      have h4 : C - 1 + 1 = C := by omega
      calc (C - 1) * S + S = (C - 1 + 1) * S := by ring
        _ = C * S := by rw [h4]
    omega
  have hbmul : e / (C * S) * (C * S) ≤ (N - 1) * (C * S) :=
    Nat.mul_le_mul_right _ (by omega)
  have hNmul : (N - 1) * (C * S) + C * S = N * (C * S) := by
    have h4 : N - 1 + 1 = N := by omega
    calc (N - 1) * (C * S) + C * S = (N - 1 + 1) * (C * S) := by ring
      _ = N * (C * S) := by rw [h4]
  omega

theorem planarChannelMap_inverse (C S g gs N e : Nat) (hg : 0 < g)
    (hgsp : 0 < gs) (hgg : g * gs = C) (he : e < N * (C * S)) :
    planarChannelMap C S g gs (planarChannelMap C S gs g e) = e := by
  have hCS : 0 < C * S := by
    rcases Nat.eq_zero_or_pos (C * S) with h | h
    · rw [h, Nat.mul_zero] at he; omega
    · exact h
  have hC : 0 < C := by
    rcases Nat.eq_zero_or_pos C with h | h
    · rw [h, Nat.zero_mul] at hCS; omega
    · exact h
  have hS : 0 < S := by
    rcases Nat.eq_zero_or_pos S with h | h
    · rw [h, Nat.mul_zero] at hCS; omega
    · exact h
  have hmod : e % (C * S) < C * S := Nat.mod_lt _ hCS
  have hc : e % (C * S) / S < C := (Nat.div_lt_iff_lt_mul hS).mpr hmod
  have hs : e % S < S := Nat.mod_lt _ hS
  have hcgs : e % (C * S) / S / gs < g := by
    apply (Nat.div_lt_iff_lt_mul hgsp).mpr
    rw [hgg]
    exact hc
  have hcm : e % (C * S) / S % gs < gs := Nat.mod_lt _ hgsp
  have hinner : planarChannelMap C S gs g e
      = e / (C * S) * (C * S)
        + ((e % (C * S) / S / gs + (e % (C * S) / S % gs) * g) * S + e % S) := by
    unfold planarChannelMap
    ring
  have hc'C : e % (C * S) / S / gs + (e % (C * S) / S % gs) * g < C := by
    have hmul : (e % (C * S) / S % gs) * g ≤ (gs - 1) * g :=
      Nat.mul_le_mul_right _ (by omega)
    have hsub : (gs - 1) * g = C - g := by
      rw [Nat.sub_mul, Nat.one_mul, Nat.mul_comm gs g, hgg]
    have hgC : g ≤ C := by
      calc g = g * 1 := (Nat.mul_one g).symm
        _ ≤ g * gs := Nat.mul_le_mul_left _ hgsp
        _ = C := hgg
    omega
  have hr : (e % (C * S) / S / gs + (e % (C * S) / S % gs) * g) * S + e % S
      < C * S := by
    have h2 : (e % (C * S) / S / gs + (e % (C * S) / S % gs) * g) * S
        ≤ (C - 1) * S := Nat.mul_le_mul_right _ (by omega)
    have h3 : (C - 1) * S + S = C * S := by
      have h4 : C - 1 + 1 = C := by omega
      calc (C - 1) * S + S = (C - 1 + 1) * S := by ring
        _ = C * S := by rw [h4]
    omega
  rw [hinner]
  set b := e / (C * S) with hbdef
  set c := e % (C * S) / S with hcdef
  set s := e % S with hsdef
  set r := (c / gs + c % gs * g) * S + s with hrdef
  have hd_div : (b * (C * S) + r) / (C * S) = b := by
    rw [Nat.add_comm, Nat.mul_comm b (C * S), Nat.add_mul_div_left _ _ hCS,
      Nat.div_eq_of_lt hr, Nat.zero_add]
  have hd_mod : (b * (C * S) + r) % (C * S) = r := by
    rw [Nat.add_comm, Nat.mul_comm b (C * S), Nat.add_mul_mod_self_left,
      Nat.mod_eq_of_lt hr]
  have hr_div : r / S = c / gs + c % gs * g := by
    rw [hrdef, Nat.add_comm, Nat.mul_comm _ S, Nat.add_mul_div_left _ _ hS,
      Nat.div_eq_of_lt hs, Nat.zero_add]
  have hr_mod : r % S = s := by
    rw [hrdef, Nat.add_comm, Nat.mul_comm _ S, Nat.add_mul_mod_self_left,
      Nat.mod_eq_of_lt hs]
  have hc'_mod : (c / gs + c % gs * g) % g = c / gs := by
    rw [Nat.mul_comm (c % gs) g, Nat.add_comm, Nat.mul_add_mod,
      Nat.mod_eq_of_lt hcgs]
  have hc'_div : (c / gs + c % gs * g) / g = c % gs := by
    rw [Nat.mul_comm (c % gs) g, Nat.add_mul_div_left _ _ hg,
      Nat.div_eq_of_lt hcgs, Nat.zero_add]
  have hd_modS : (b * (C * S) + r) % S = s := by
    rw [show b * (C * S) = S * (C * b) by ring, Nat.mul_add_mod, hr_mod]
  unfold planarChannelMap
  rw [hd_div, hd_mod, hr_div, hc'_mod, hc'_div, hd_modS]
  have hcc : (c % gs) * S + (c / gs) * (gs * S) = c * S := by
    have h5 : c % gs + gs * (c / gs) = c := Nat.mod_add_div c gs
    calc (c % gs) * S + (c / gs) * (gs * S)
        = (c % gs + gs * (c / gs)) * S := by ring
      _ = c * S := by rw [h5]
  have hsS : s = e % (C * S) % S :=
    (Nat.mod_mod_of_dvd _ ⟨C, Nat.mul_comm C S⟩).symm
  have h1 : S * c + s = e % (C * S) := by
    rw [hsS, hcdef]
    exact Nat.div_add_mod (e % (C * S)) S
  have h2 : C * S * b + e % (C * S) = e := Nat.div_add_mod e (C * S)
  calc b * (C * S) + (c % gs) * S + (c / gs) * (gs * S) + s
      = b * (C * S) + ((c % gs) * S + (c / gs) * (gs * S)) + s := by ring
    _ = b * (C * S) + c * S + s := by rw [hcc]
    _ = C * S * b + (S * c + s) := by ring
    _ = C * S * b + e % (C * S) := by rw [h1]
    _ = e := h2

theorem headD_mul_tail_prod (L : List Nat) (hL : L ≠ []) :
    L.getD 0 0 * (L.drop 1).prod = L.prod := by
  cases L with
  | nil => exact absurd rfl hL
  | cons x t => rfl

theorem planar_total (a : ShuffleChannelsAttributes) (n : Nat)
    (hl : a.layoutType = LayoutType.ncsp) (hax : a.axis = (n : Int))
    (hlen : a.srcDims.length = a.dataRank)
    (hspr : a.spatialRank = a.dataRank - n - 1) (hn : n < a.dataRank)
    (hg : 0 < a.group) (hdiv : a.group ∣ a.srcDims.getD n 0) :
    (permuteParamsOf a).dst_block_dims.getD 0 0
      * ((permuteParamsOf a).dst_block_dims.drop 1).prod
      = a.srcDims.prod := by
  have hgs : groupSizeOf a = a.srcDims.getD n 0 / a.group := by
    unfold groupSizeOf; rw [hax, Int.toNat_natCast]
  have hgg : a.group * (a.srcDims.getD n 0 / a.group) = a.srcDims.getD n 0 :=
    Nat.mul_div_cancel' hdiv
  have hDm := map_getD_range a.srcDims n (by omega)
  have hprod : a.srcDims.prod
      = (a.srcDims.take n).prod
        * (a.srcDims.getD n 0 * (a.srcDims.drop (n + 1)).prod) := by
    conv_lhs => rw [srcDims_split a n hlen hn]
    rw [List.prod_append, List.prod_cons]
  by_cases hsp : a.spatialRank = 0
  · obtain ⟨_, _, hdst⟩ := planar_plan_nosp a n hl hax hsp
    have hS1 : (a.srcDims.drop (n + 1)).prod = 1 := by
      rw [List.drop_eq_nil_of_le (by omega)]; rfl
    rw [hdst, hDm, hgs, headD_mul_tail_prod _ (by simp), List.prod_append,
      hprod, hS1, Nat.mul_one]
    congr 1
    simp only [List.prod_cons, List.prod_nil, Nat.mul_one]
    rw [Nat.mul_comm, hgg]
  · obtain ⟨_, _, hdst⟩ := planar_plan_sp a n hl hax hsp
    have hSS := spatialShapeSizeOf_planar a n hax hlen hspr hn
    rw [hdst, hDm, hgs, hSS, headD_mul_tail_prod _ (by simp), List.prod_append,
      hprod]
    congr 1
    simp only [List.prod_cons, List.prod_nil, Nat.mul_one]
    rw [← Nat.mul_assoc, Nat.mul_comm (a.srcDims.getD n 0 / a.group) a.group, hgg]

/-- C5: for every accepted planar bundle with shuffle-axis extent `C` and
group `g` dividing `C`, executing the plan built for `g` and then the plan
built for the inverse configuration (same shape and axis, group `C / g`) on
the result reconstructs the original buffer byte-for-byte. -/
theorem C5_inverse_roundtrip (a : ShuffleChannelsAttributes) (p p2 : PermuteParams)
    (hl : a.layoutType = LayoutType.ncsp)
    (hax0 : 0 ≤ a.axis) (haxr : a.axis < (a.dataRank : Int))
    (hlen : a.srcDims.length = a.dataRank)
    (hspr : a.spatialRank = a.dataRank - a.axis.toNat - 1)
    (hg : 0 < a.group) (hdiv : a.group ∣ a.srcDims.getD a.axis.toNat 0)
    (hC : 0 < a.srcDims.getD a.axis.toNat 0) (hds : 0 < a.dataSize)
    (hok : shuffleChannelsExecutorInit a = Except.ok p)
    (hok2 : shuffleChannelsExecutorInit
        { a with group := a.srcDims.getD a.axis.toNat 0 / a.group }
      = Except.ok p2) :
    ∀ src : Nat → Nat,
      permuteKernelExecute p2
        (fun t => (permuteKernelExecute p src none).getD t 0) none
      = (List.range (a.srcDims.prod * a.dataSize)).map src := by
  rw [executorInit_ok] at hok hok2
  injection hok with hok
  injection hok2 with hok2
  subst hok
  subst hok2
  intro src
  have hax : a.axis = (a.axis.toNat : Int) := (Int.toNat_of_nonneg hax0).symm
  have hn : a.axis.toNat < a.dataRank := by omega
  have hgg : a.group * (a.srcDims.getD a.axis.toNat 0 / a.group)
      = a.srcDims.getD a.axis.toNat 0 := Nat.mul_div_cancel' hdiv
  have hgC : a.group ≤ a.srcDims.getD a.axis.toNat 0 := Nat.le_of_dvd hC hdiv
  have hg2 : 0 < a.srcDims.getD a.axis.toNat 0 / a.group := Nat.div_pos hgC hg
  have hdiv2 : a.srcDims.getD a.axis.toNat 0 / a.group
      ∣ a.srcDims.getD a.axis.toNat 0 :=
    ⟨a.group, by rw [Nat.mul_comm]; exact hgg.symm⟩
  have hdd : a.srcDims.getD a.axis.toNat 0
      / (a.srcDims.getD a.axis.toNat 0 / a.group) = a.group :=
    Nat.div_div_self hdiv (by omega)
  have hprod : a.srcDims.prod
      = (a.srcDims.take a.axis.toNat).prod
        * (a.srcDims.getD a.axis.toNat 0
            * (a.srcDims.drop (a.axis.toNat + 1)).prod) := by
    conv_lhs => rw [srcDims_split a a.axis.toNat hlen hn]
    rw [List.prod_append, List.prod_cons]
  have hlin := permuteLin_planar a a.axis.toNat hl hax hlen hspr hn hg hdiv
  have hlin2 : ∀ e, e < a.srcDims.prod →
      permuteLin (permuteParamsOf
          { a with group := a.srcDims.getD a.axis.toNat 0 / a.group }) e
        = planarChannelMap (a.srcDims.getD a.axis.toNat 0)
            ((a.srcDims.drop (a.axis.toNat + 1)).prod)
            (a.srcDims.getD a.axis.toNat 0 / a.group)
            (a.srcDims.getD a.axis.toNat 0
              / (a.srcDims.getD a.axis.toNat 0 / a.group)) e :=
    permuteLin_planar
      { a with group := a.srcDims.getD a.axis.toNat 0 / a.group }
      a.axis.toNat hl hax hlen hspr hn hg2 hdiv2
  rw [hdd] at hlin2
  have htot2 : (permuteParamsOf
          { a with group := a.srcDims.getD a.axis.toNat 0 / a.group
          }).dst_block_dims.getD 0 0
      * ((permuteParamsOf
          { a with group := a.srcDims.getD a.axis.toNat 0 / a.group
          }).dst_block_dims.drop 1).prod
      = a.srcDims.prod :=
    planar_total
      { a with group := a.srcDims.getD a.axis.toNat 0 / a.group }
      a.axis.toNat hl hax hlen hspr hn hg2 hdiv2
  have htot : (permuteParamsOf a).dst_block_dims.getD 0 0
      * ((permuteParamsOf a).dst_block_dims.drop 1).prod = a.srcDims.prod :=
    planar_total a a.axis.toNat hl hax hlen hspr hn hg hdiv
  have hlist : permuteKernelExecute (permuteParamsOf a) src none
      = (List.range (a.srcDims.prod * a.dataSize)).map
          (fun u => src (permByteMap (permuteParamsOf a) u)) := by
    show (List.range ((permuteParamsOf a).dst_block_dims.getD 0 0
        * ((permuteParamsOf a).dst_block_dims.drop 1).prod
        * (permuteParamsOf a).data_size)).map
        (fun u => src (permByteMap (permuteParamsOf a) u)) = _
    rw [htot, permuteParamsOf_data_size]
  have hgetD : ∀ u, u < a.srcDims.prod * a.dataSize →
      (permuteKernelExecute (permuteParamsOf a) src none).getD u 0
        = src (permByteMap (permuteParamsOf a) u) := by
    intro u hu
    rw [hlist]
    have hul : u < ((List.range (a.srcDims.prod * a.dataSize)).map
        (fun v => src (permByteMap (permuteParamsOf a) v))).length := by
      simp only [List.length_map, List.length_range]
      exact hu
    rw [List.getD_eq_getElem _ _ hul, List.getElem_map, List.getElem_range]
  show (List.range ((permuteParamsOf
        { a with group := a.srcDims.getD a.axis.toNat 0 / a.group
        }).dst_block_dims.getD 0 0
      * ((permuteParamsOf
          { a with group := a.srcDims.getD a.axis.toNat 0 / a.group
          }).dst_block_dims.drop 1).prod
      * (permuteParamsOf
          { a with group := a.srcDims.getD a.axis.toNat 0 / a.group
          }).data_size)).map
      (fun t => (permuteKernelExecute (permuteParamsOf a) src none).getD
        (permByteMap (permuteParamsOf
          { a with group := a.srcDims.getD a.axis.toNat 0 / a.group }) t) 0)
    = (List.range (a.srcDims.prod * a.dataSize)).map src
  rw [htot2, permuteParamsOf_data_size,
    show ({ a with group := a.srcDims.getD a.axis.toNat 0 / a.group } :
      ShuffleChannelsAttributes).dataSize = a.dataSize from rfl]
  apply List.map_congr_left
  intro t ht
  have httot : t < a.srcDims.prod * a.dataSize := List.mem_range.mp ht
  have he : t / a.dataSize < a.srcDims.prod :=
    (Nat.div_lt_iff_lt_mul hds).mpr httot
  have he' : t / a.dataSize
      < (a.srcDims.take a.axis.toNat).prod
        * (a.srcDims.getD a.axis.toNat 0
            * (a.srcDims.drop (a.axis.toNat + 1)).prod) := by
    rw [← hprod]
    exact he
  have hmap2 : permByteMap (permuteParamsOf
        { a with group := a.srcDims.getD a.axis.toNat 0 / a.group }) t
      = planarChannelMap (a.srcDims.getD a.axis.toNat 0)
          ((a.srcDims.drop (a.axis.toNat + 1)).prod)
          (a.srcDims.getD a.axis.toNat 0 / a.group) a.group (t / a.dataSize)
          * a.dataSize + t % a.dataSize := by
    show permuteLin (permuteParamsOf
          { a with group := a.srcDims.getD a.axis.toNat 0 / a.group })
        (t / (permuteParamsOf
          { a with group := a.srcDims.getD a.axis.toNat 0 / a.group
          }).data_size)
        * (permuteParamsOf
          { a with group := a.srcDims.getD a.axis.toNat 0 / a.group
          }).data_size
        + t % (permuteParamsOf
          { a with group := a.srcDims.getD a.axis.toNat 0 / a.group
          }).data_size
      = _
    rw [show (permuteParamsOf
        { a with group := a.srcDims.getD a.axis.toNat 0 / a.group
        }).data_size = a.dataSize from rfl]
    rw [hlin2 (t / a.dataSize) he]
  have hdlt : planarChannelMap (a.srcDims.getD a.axis.toNat 0)
      ((a.srcDims.drop (a.axis.toNat + 1)).prod)
      (a.srcDims.getD a.axis.toNat 0 / a.group) a.group (t / a.dataSize)
      < a.srcDims.prod := by
    rw [hprod]
    exact planarChannelMap_lt _ _ _ _ _ _ hg2
      (by rw [Nat.mul_comm]; exact hgg) he'
  have hmod : t % a.dataSize < a.dataSize := Nat.mod_lt _ hds
  have hu : planarChannelMap (a.srcDims.getD a.axis.toNat 0)
      ((a.srcDims.drop (a.axis.toNat + 1)).prod)
      (a.srcDims.getD a.axis.toNat 0 / a.group) a.group (t / a.dataSize)
      * a.dataSize + t % a.dataSize < a.srcDims.prod * a.dataSize := by
    have h1 : planarChannelMap (a.srcDims.getD a.axis.toNat 0)
        ((a.srcDims.drop (a.axis.toNat + 1)).prod)
        (a.srcDims.getD a.axis.toNat 0 / a.group) a.group (t / a.dataSize)
        * a.dataSize + t % a.dataSize
        < (planarChannelMap (a.srcDims.getD a.axis.toNat 0)
            ((a.srcDims.drop (a.axis.toNat + 1)).prod)
            (a.srcDims.getD a.axis.toNat 0 / a.group) a.group (t / a.dataSize)
            + 1) * a.dataSize := by
      rw [Nat.add_mul]
      omega
    have h2 : (planarChannelMap (a.srcDims.getD a.axis.toNat 0)
          ((a.srcDims.drop (a.axis.toNat + 1)).prod)
          (a.srcDims.getD a.axis.toNat 0 / a.group) a.group (t / a.dataSize)
          + 1) * a.dataSize ≤ a.srcDims.prod * a.dataSize :=
      Nat.mul_le_mul (Nat.succ_le_of_lt hdlt) (Nat.le_refl _)
    exact Nat.lt_of_lt_of_le h1 h2
  have hback : permByteMap (permuteParamsOf a)
      (planarChannelMap (a.srcDims.getD a.axis.toNat 0)
        ((a.srcDims.drop (a.axis.toNat + 1)).prod)
        (a.srcDims.getD a.axis.toNat 0 / a.group) a.group (t / a.dataSize)
        * a.dataSize + t % a.dataSize) = t := by
    show permuteLin (permuteParamsOf a)
        ((planarChannelMap (a.srcDims.getD a.axis.toNat 0)
            ((a.srcDims.drop (a.axis.toNat + 1)).prod)
            (a.srcDims.getD a.axis.toNat 0 / a.group) a.group (t / a.dataSize)
            * a.dataSize + t % a.dataSize) / (permuteParamsOf a).data_size)
        * (permuteParamsOf a).data_size
        + (planarChannelMap (a.srcDims.getD a.axis.toNat 0)
            ((a.srcDims.drop (a.axis.toNat + 1)).prod)
            (a.srcDims.getD a.axis.toNat 0 / a.group) a.group (t / a.dataSize)
            * a.dataSize + t % a.dataSize) % (permuteParamsOf a).data_size
      = t
    rw [permuteParamsOf_data_size]
    have hq : (planarChannelMap (a.srcDims.getD a.axis.toNat 0)
          ((a.srcDims.drop (a.axis.toNat + 1)).prod)
          (a.srcDims.getD a.axis.toNat 0 / a.group) a.group (t / a.dataSize)
          * a.dataSize + t % a.dataSize) / a.dataSize
        = planarChannelMap (a.srcDims.getD a.axis.toNat 0)
            ((a.srcDims.drop (a.axis.toNat + 1)).prod)
            (a.srcDims.getD a.axis.toNat 0 / a.group) a.group
            (t / a.dataSize) := by
      rw [Nat.mul_comm, Nat.mul_add_div hds, Nat.div_eq_of_lt hmod,
        Nat.add_zero]
    have hr : (planarChannelMap (a.srcDims.getD a.axis.toNat 0)
          ((a.srcDims.drop (a.axis.toNat + 1)).prod)
          (a.srcDims.getD a.axis.toNat 0 / a.group) a.group (t / a.dataSize)
          * a.dataSize + t % a.dataSize) % a.dataSize
        = t % a.dataSize := by
      rw [Nat.mul_comm, Nat.mul_add_mod]
      exact Nat.mod_mod_of_dvd t dvd_rfl
    rw [hq, hr, hlin _ hdlt,
      planarChannelMap_inverse (a.srcDims.getD a.axis.toNat 0)
        ((a.srcDims.drop (a.axis.toNat + 1)).prod) a.group
        (a.srcDims.getD a.axis.toNat 0 / a.group)
        ((a.srcDims.take a.axis.toNat).prod) (t / a.dataSize) hg hg2 hgg he']
    exact Nat.div_add_mod' t a.dataSize
  show (permuteKernelExecute (permuteParamsOf a) src none).getD
      (permByteMap (permuteParamsOf
        { a with group := a.srcDims.getD a.axis.toNat 0 / a.group }) t) 0
    = src t
  rw [hmap2, hgetD _ hu, hback]

theorem C5_witness :
    permuteKernelExecute (permuteParamsOf
        { examplePlanarAttrs with
            group := examplePlanarAttrs.srcDims.getD
                examplePlanarAttrs.axis.toNat 0 / examplePlanarAttrs.group })
      (fun t => (permuteKernelExecute (permuteParamsOf examplePlanarAttrs)
          (fun u => u) none).getD t 0) none
    = (List.range (examplePlanarAttrs.srcDims.prod
        * examplePlanarAttrs.dataSize)).map (fun u => u) :=
  C5_inverse_roundtrip examplePlanarAttrs
    (permuteParamsOf examplePlanarAttrs)
    (permuteParamsOf
      { examplePlanarAttrs with
          group := examplePlanarAttrs.srcDims.getD
              examplePlanarAttrs.axis.toNat 0 / examplePlanarAttrs.group })
    rfl (by decide) (by decide) (by decide) (by decide) (by decide)
    (by decide) (by decide) (by decide)
    (executorInit_ok _) (executorInit_ok _) (fun u => u)

end ShuffleChannels
